import Mathlib

/-!
The layout pass of lazygit (`pkg/gui/layout.go`).

A shallow embedding of `(*Gui).layout` and of the helpers defined next to it.
Go pointers to views are modelled by view names into the list of views held by
the terminal-control surface; a mutation through a `*gocui.View` is a
modification of the first view of that name in the list.
-/

namespace Lazygit

/-! ## Data model -/

/-- Errors returned by the terminal-control surface and by collaborators.
`ErrUnknownView` is the sentinel `gocui.ErrUnknownView`. -/
inductive Error where
  | ErrUnknownView
  | other (msg : String)
deriving DecidableEq, Repr

/-- The test `errors.Is(err, gocui.ErrUnknownView)`. -/
def Error.isUnknownView : Error → Bool
  | .ErrUnknownView => true
  | .other _ => false

/-- A window rectangle as produced by `getWindowDimensions` (inclusive cell bounds). -/
structure Dimensions where
  X0 : Int
  Y0 : Int
  X1 : Int
  Y1 : Int
deriving DecidableEq, Repr

/-- Values of `types.NeedsRerenderOnWidthChangeLevel` that the layout pass distinguishes. -/
inductive NeedsRerenderOnWidthChangeLevel where
  | NEEDS_RERENDER_ON_WIDTH_CHANGE_NONE
  | NEEDS_RERENDER_ON_WIDTH_CHANGE_WHEN_WIDTH_CHANGES
deriving DecidableEq, Repr

/-- Context kinds that the layout pass distinguishes. -/
inductive ContextKind where
  | NORMAL
  | PERSISTENT_POPUP
  | TEMPORARY_POPUP
deriving DecidableEq, Repr

/-- A `types.Context` as seen by one layout pass: the answers of the interface
methods that `layout` calls on it. -/
structure Context where
  GetViewName : String
  GetWindowName : String
  GetKind : ContextKind
  HasControlledBounds : Bool
  IsTransient : Bool
  NeedsRerenderOnWidthChange : NeedsRerenderOnWidthChangeLevel
  NeedsRerenderOnHeightChange : Bool
  TotalContentHeight : Int
deriving DecidableEq, Repr

/-- A `gocui.View`: the attributes that `layout` reads or writes. -/
structure View where
  name : String
  x0 : Int
  y0 : Int
  x1 : Int
  y1 : Int
  oy : Int
  Frame : Bool
  Visible : Bool
  CanScrollPastBottom : Bool
  buffer : String
deriving DecidableEq, Repr

/-- Modelled from the spec: `gocui.View.Width` is not under src/. The measured
width of a view is the number of columns of its inclusive bounds; `layout`
compares it with `X1 - X0 + 1` of a window rectangle. -/
def View.Width (v : View) : Int := v.x1 - v.x0 + 1

/-- Modelled from the spec: `gocui.View.Height` is not under src/. The measured
height of a view is the number of rows of its inclusive bounds; `layout`
compares it with `Y1 - Y0 + 1` of the rectangle of the main window. -/
def View.Height (v : View) : Int := v.y1 - v.y0 + 1

/-- Modelled from the spec: `gocui.View.Size` is not under src/; the measured
width and height. -/
def View.Size (v : View) : Int × Int := (v.Width, v.Height)

/-- Modelled from the spec: `gocui.View.OriginY` is not under src/; the scroll
origin of the view. -/
def View.OriginY (v : View) : Int := v.oy

/-- Modelled from the spec: `gocui.View.ScrollUp` is not under src/. Scrolls up
by `amount` rows but not past the top: the amount is first limited to the
current origin ("the view might not have scrolled actually (if it was at the
limit already)"). -/
def View.ScrollUp (v : View) (amount : Int) : View :=
  let amount := if amount > v.oy then v.oy else amount
  if amount ≠ 0 then { v with oy := v.oy - amount } else v

/-- Modelled from the spec: `gocui.View.Buffer` is not under src/; the content
of the view. -/
def View.Buffer (v : View) : String := v.buffer

/-- Modelled from the spec: `gocui.Gui` is not under src/. The terminal-control
surface: the views created so far, in creation order, and the current view. -/
structure Gocui where
  views : List View
  currentView : Option String
  Highlight : Bool
deriving DecidableEq, Repr

/-- Modelled from the spec: `gocui.Gui.View` is not under src/. Looks a view up
by name; when no view of that name has been created the result is the
unknown-view error and no view (nil pointer). -/
def Gocui.View (g : Gocui) (name : String) : Except Error View :=
  match g.views.find? (fun v => v.name == name) with
  | some v => .ok v
  | none => .error .ErrUnknownView

/-- A mutation through a view pointer: modifies the first view called `name`. -/
def modifyFirst (name : String) (f : View → View) : List View → List View
  | [] => []
  | v :: vs => if v.name == name then f v :: vs else v :: modifyFirst name f vs

/-- A mutation of the surface through the pointer returned by `Gocui.View`. -/
def Gocui.modifyView (g : Gocui) (name : String) (f : Lazygit.View → Lazygit.View) : Gocui :=
  { g with views := modifyFirst name f g.views }

/-- Modelled from the spec: gocui's `newView` is not under src/; a fresh view is
framed, visible and unscrolled. -/
def newView (name : String) (x0 y0 x1 y1 : Int) : View :=
  { name := name, x0 := x0, y0 := y0, x1 := x1, y1 := y1, oy := 0,
    Frame := true, Visible := true, CanScrollPastBottom := false, buffer := "" }

/-- Modelled from the spec: `gocui.Gui.SetView` is not under src/. Gives the
view called `name` the bounds `(x0, y0, x1, y1)`; a view that does not exist
yet is created and the unknown-view error is returned with it. `fault` is the
terminal-surface failure of section 7 (b) of the spec: when it names an
error for this view the call returns that error and changes nothing; `none`
is the surface operating normally. -/
def Gocui.SetView (g : Gocui) (fault : String → Option Error) (name : String)
    (x0 y0 x1 y1 : Int) : Gocui × Option Error :=
  if name = "" then (g, some (.other "invalid name"))
  else
    match fault name with
    | some e => (g, some e)
    | none =>
      match g.View name with
      | .ok _ =>
        (g.modifyView name (fun v => { v with x0 := x0, y0 := y0, x1 := x1, y1 := y1 }), none)
      | .error _ =>
        ({ g with views := g.views ++ [newView name x0 y0 x1 y1] }, some .ErrUnknownView)

/-- Modelled from the spec: `gocui.Gui.SetCurrentView` is not under src/. Makes
the named view the current one; fails with the unknown-view error when it
does not exist. -/
def Gocui.SetCurrentView (g : Gocui) (name : String) : Gocui × Option Error :=
  match g.View name with
  | .ok _ => ({ g with currentView := some name }, none)
  | .error e => (g, some e)

/-! ## The view binder (`layout`, lines 46-129) -/

/-- The part of the state of a layout pass that the binder touches: the
terminal-control surface and the local variable `contextsToRerender`. -/
structure BindState where
  g : Gocui
  contextsToRerender : List Context
deriving DecidableEq, Repr

/-- The frame offset of lines 70-73: `1`, or `0` when the view draws a frame. -/
def frameOffset (view : View) : Int := if view.Frame then 0 else 1

/-- The closure `setViewFromDimensions` of `layout` (lines 49-118).
`viewDimensions`, `width` and `height` are the captured locals of `layout`;
the returned view pointer is dropped, as the only caller discards it. After
the scroll of line 82 the local `view` is rebound to the object behind the
pointer, which `g1` holds under the same name. -/
def setViewFromDimensions (viewDimensions : String → Option Dimensions) (width height : Int)
    (fault : String → Option Error) (context : Context) (st : BindState) :
    BindState × Option Error :=
  let viewName := context.GetViewName
  let windowName := context.GetWindowName
  match st.g.View viewName with
  | .error err => (st, some err)
  | .ok view =>
    match viewDimensions windowName with
    | none =>
      let r := st.g.SetView fault viewName 0 0 width height
      ({ st with g := r.1.modifyView viewName (fun v => { v with Visible := false }) }, r.2)
    | some dimensionsObj =>
      let frameOffset := frameOffset view
      let newHeight := dimensionsObj.Y1 - dimensionsObj.Y0 + 2 * frameOffset
      let maxOriginY :=
        if !view.CanScrollPastBottom then context.TotalContentHeight - (newHeight - 1)
        else context.TotalContentHeight
      let oldOriginY := view.OriginY
      let g1 :=
        if oldOriginY > maxOriginY then
          st.g.modifyView viewName (fun v => v.ScrollUp (oldOriginY - maxOriginY))
        else st.g
      let view :=
        if oldOriginY > maxOriginY then view.ScrollUp (oldOriginY - maxOriginY) else view
      let mustRerender :=
        decide (oldOriginY > maxOriginY) &&
          (decide (oldOriginY ≠ view.OriginY) && context.NeedsRerenderOnHeightChange)
      let mustRerender :=
        if context.NeedsRerenderOnWidthChange =
            .NEEDS_RERENDER_ON_WIDTH_CHANGE_WHEN_WIDTH_CHANGES then
          let oldWidth := view.Width
          let newWidth := dimensionsObj.X1 - dimensionsObj.X0 + 1
          if oldWidth ≠ newWidth then true else mustRerender
        else mustRerender
      let mustRerender :=
        if context.NeedsRerenderOnHeightChange then
          let oldHeight := view.Height
          let newHeight := dimensionsObj.Y1 - dimensionsObj.Y0 + 1
          if oldHeight ≠ newHeight then true else mustRerender
        else mustRerender
      let contextsToRerender :=
        if mustRerender then st.contextsToRerender ++ [context] else st.contextsToRerender
      let r := g1.SetView fault viewName
        (dimensionsObj.X0 - frameOffset) (dimensionsObj.Y0 - frameOffset)
        (dimensionsObj.X1 + frameOffset) (dimensionsObj.Y1 + frameOffset)
      ({ g := r.1.modifyView viewName (fun v => { v with Visible := true }),
         contextsToRerender := contextsToRerender }, r.2)

/-- The binding loop of `layout` (lines 120-129) over
`gui.State.Contexts.Flatten()`: contexts without controlled bounds are
skipped, the unknown-view error is ignored, any other error is returned. -/
def bindContexts (viewDimensions : String → Option Dimensions) (width height : Int)
    (fault : String → Option Error) : List Context → BindState → BindState × Option Error
  | [], st => (st, none)
  | context :: rest, st =>
    if !context.HasControlledBounds then
      bindContexts viewDimensions width height fault rest st
    else
      match setViewFromDimensions viewDimensions width height fault context st with
      | (st1, some err) =>
        if !err.isUnknownView then (st1, some err)
        else bindContexts viewDimensions width height fault rest st1
      | (st1, none) => bindContexts viewDimensions width height fault rest st1

/-- The rows strictly inside the bounds that the binder applies for a window
rectangle: `newHeight - 1` of lines 76-79, the viewport height that is
subtracted from the content height. -/
def viewportHeight (view : View) (d : Dimensions) : Int :=
  d.Y1 - d.Y0 + 2 * frameOffset view - 1


/-- The value of the local `maxOriginY` of `setViewFromDimensions` at line 81. -/
def maxOriginY (view : View) (context : Context) (d : Dimensions) : Int :=
  if !view.CanScrollPastBottom then context.TotalContentHeight - viewportHeight view d
  else context.TotalContentHeight

/-- The object behind the view pointer after the scroll clamp of lines 81-88. -/
def clampView (view : View) (context : Context) (d : Dimensions) : View :=
  if view.OriginY > maxOriginY view context d then
    view.ScrollUp (view.OriginY - maxOriginY view context d)
  else view

/-- The value of the local `mustRerender` of `setViewFromDimensions` at line 103. -/
def mustRerender (view : View) (context : Context) (d : Dimensions) : Bool :=
  (decide (view.OriginY > maxOriginY view context d) &&
    (decide (view.OriginY ≠ (clampView view context d).OriginY) &&
      context.NeedsRerenderOnHeightChange)) ||
  (decide (context.NeedsRerenderOnWidthChange =
      .NEEDS_RERENDER_ON_WIDTH_CHANGE_WHEN_WIDTH_CHANGES) &&
    decide (view.Width ≠ d.X1 - d.X0 + 1)) ||
  (context.NeedsRerenderOnHeightChange && decide (view.Height ≠ d.Y1 - d.Y0 + 1))

/-! ## Concrete scenes used by the examples -/

/-- A terminal-control surface on which no call fails. -/
def noFault : String → Option Error := fun _ => none

/-- A framed view called "files", scrolled to row 90. -/
def filesView : View :=
  { name := "files", x0 := 0, y0 := 0, x1 := 10, y1 := 10, oy := 90,
    Frame := true, Visible := false, CanScrollPastBottom := false, buffer := "" }

/-- A frameless view called "options". -/
def optionsView : View :=
  { name := "options", x0 := 0, y0 := 0, x1 := 10, y1 := 10, oy := 0,
    Frame := false, Visible := false, CanScrollPastBottom := false, buffer := "" }

/-- A controlled-bounds context on the view "files" with 100 rows of content. -/
def filesContext : Context :=
  { GetViewName := "files", GetWindowName := "files", GetKind := .NORMAL,
    HasControlledBounds := true, IsTransient := false,
    NeedsRerenderOnWidthChange := .NEEDS_RERENDER_ON_WIDTH_CHANGE_NONE,
    NeedsRerenderOnHeightChange := false, TotalContentHeight := 100 }

/-- A controlled-bounds context on the frameless view "options". -/
def optionsContext : Context :=
  { GetViewName := "options", GetWindowName := "options", GetKind := .NORMAL,
    HasControlledBounds := true, IsTransient := false,
    NeedsRerenderOnWidthChange := .NEEDS_RERENDER_ON_WIDTH_CHANGE_NONE,
    NeedsRerenderOnHeightChange := false, TotalContentHeight := 0 }

/-- A surface holding the views "files" and "options". -/
def sceneSurface : Gocui :=
  { views := [filesView, optionsView], currentView := none, Highlight := true }

/-- Window rectangles in which "files" has 20 rows inside its frame. -/
def clampDimensions : String → Option Dimensions :=
  fun w => if w = "files" then some ⟨0, 2, 40, 23⟩ else none

/-- Window rectangles giving both windows the rectangle [2,2,10,10]. -/
def squareDimensions : String → Option Dimensions :=
  fun w => if w = "files" ∨ w = "options" then some ⟨2, 2, 10, 10⟩ else none

/-! ## The rest of the pass -/

/-- How a layout pass (or one of its phases) ends: it falls through (`return nil`
at the end of `layout`), returns an error, or panics on a nil view pointer. -/
inductive Result where
  | ok
  | error (err : Error)
  | panic
deriving DecidableEq, Repr

/-- What is known of a layout pass after its drain of the deferred actions was
followed for a given number of loop iterations: the pass has ended, or the
drain is still running. -/
inductive Outcome where
  | ended (result : Result)
  | running
deriving DecidableEq, Repr

/-- Calls of collaborators that are not under src/, recorded in call order, and
entry markers of the two one-shot sequences. -/
inductive Event where
  | printCommandLogHeader
  | ReadLines (view : String) (n : Int)
  | SetViewContent (view : String) (content : String)
  | onInitialViewsCreation
  | showIntroPopupMessage
  | showBreakingChangesMessage
  | SaveAppStateAndLogError
  | CreateRecentReposMenu
  | CheckForUpdateInBackground
  | waitForIntroDone
  | handleTestMode
  | onInitialViewsCreationForRepo
  | SetViewOnTop (view : String)
  | Activate
  | loadNewRepo
  | onResize
  | HandleRender (context : Context)
  | ResizeCurrentPopupPanels
  | renderContextOptionsMap
deriving DecidableEq, Repr

/-- The record `gui.PrevLayout`. -/
structure PrevLayout where
  Information : String
  MainWidth : Int
  MainHeight : Int
deriving DecidableEq, Repr

/-- The fields of `*Gui` that `layout` reads or writes. `ViewsSetup` is the
process-level gate `gui.ViewsSetup`, `StateViewsSetup` is the repository-level
gate `gui.State.ViewsSetup`, `events` records the collaborator calls. -/
structure Gui where
  g : Gocui
  ViewsSetup : Bool
  StateViewsSetup : Bool
  PrevLayout : PrevLayout
  showRecentRepos : Bool
  events : List Event
deriving DecidableEq, Repr

/-- The names of the views behind the pointers `gui.Views.Main`, `.Secondary`,
`.Limit`, `.Tooltip`, `.Menu` and `.Information`. -/
structure Views where
  Main : String
  Secondary : String
  Limit : String
  Tooltip : String
  Menu : String
  Information : String
deriving DecidableEq, Repr

/-- What the collaborators that are not under src/ answer during one pass:
`g.Size()`, `informationStr()`, `getWindowDimensions(...)`,
`State.Contexts.Flatten()`, `defaultSideContext().GetViewName()`, the view
pointers, `getViewBufferManagerForView(...) != nil`,
`helpers.Window.GetViewNameForWindow`, the failure of the terminal-control
surface, the configuration and stored state read by `onInitialViewsCreation`,
`orderedViews()`, and the errors of `CreateRecentReposMenu`, `SetViewOnTop`,
`loadNewRepo` and `onResize`. -/
structure Env where
  width : Int
  height : Int
  informationStr : String
  viewDimensions : String → Option Dimensions
  contexts : List Context
  defaultSideViewName : String
  Views : Views
  hasViewBufferManager : String → Bool
  GetViewNameForWindow : String → String
  setViewFault : String → Option Error
  DisableStartupPopups : Bool
  storedPopupVersion : Int
  StartupPopupVersion : Int
  CreateRecentReposMenu : Option Error
  orderedViews : List String
  SetViewOnTop : String → Option Error
  loadNewRepo : Option Error
  onResize : Option Error

/-- Appends a collaborator call to the record. -/
def Gui.log (gui : Gui) (e : Event) : Gui := { gui with events := gui.events ++ [e] }

/-- Lines 13-19 of `layout`: before the views are set up, print the command log
header and focus the default side view. -/
def layoutStart (env : Env) (gui : Gui) : Gui × Option Error :=
  if !gui.ViewsSetup then
    let gui := gui.log .printCommandLogHeader
    let r := gui.g.SetCurrentView env.defaultSideViewName
    ({ gui with g := r.1 }, r.2)
  else (gui, none)

/-- Lines 30-44 of `layout`: "reading more lines into main view buffers upon
resize". `viewDimensions["main"]` is a Go map read, the zero rectangle when
the window is absent. -/
def readMoreLines (env : Env) (gui : Gui) : Gui :=
  match gui.g.View env.Views.Main with
  | .error _ => gui
  | .ok prevMainView =>
    let prevMainHeight := prevMainView.Height
    let main := (env.viewDimensions "main").getD ⟨0, 0, 0, 0⟩
    let newMainHeight := main.Y1 - main.Y0 + 1
    let heightDiff := newMainHeight - prevMainHeight
    if heightDiff > 0 then
      let gui :=
        if env.hasViewBufferManager env.Views.Main then
          gui.log (.ReadLines env.Views.Main heightDiff)
        else gui
      if env.hasViewBufferManager env.Views.Secondary then
        gui.log (.ReadLines env.Views.Secondary heightDiff)
      else gui
    else gui

/-- The function `transientContexts` (lines 277-281). -/
def transientContexts (contexts : List Context) : List Context :=
  contexts.filter (fun context => context.IsTransient)

/-- The loop of lines 137-143 of `layout` over the transient contexts. An error
other than unknown view is returned; on unknown view the view pointer is nil
and the assignment to `view.Visible` panics. -/
def transientVisibility (GetViewNameForWindow : String → String) :
    List Context → Gocui → Gocui × Result
  | [], g => (g, .ok)
  | context :: rest, g =>
    match g.View context.GetViewName with
    | .error err =>
      if !err.isUnknownView then (g, .error err)
      else (g, .panic)
    | .ok _ =>
      transientVisibility GetViewNameForWindow rest
        (g.modifyView context.GetViewName (fun view =>
          { view with
            Visible := decide (GetViewNameForWindow context.GetWindowName = context.GetViewName) }))

/-- Lines 131-135 of `layout`: the visibility of the limit and tooltip views.
A view pointer that is nil makes the assignment panic. -/
def limitAndTooltip (env : Env) (g : Gocui) : Gocui × Result :=
  let minimumHeight : Int := 9
  let minimumWidth : Int := 10
  match g.View env.Views.Limit with
  | .error _ => (g, .panic)
  | .ok _ =>
    let g := g.modifyView env.Views.Limit (fun v =>
      { v with Visible := decide (env.height < minimumHeight) || decide (env.width < minimumWidth) })
    match g.View env.Views.Tooltip, g.View env.Views.Menu with
    | .ok tooltip, .ok menu =>
      (g.modifyView env.Views.Tooltip (fun v =>
        { v with Visible := menu.Visible && decide (tooltip.Buffer ≠ "") }), .ok)
    | _, _ => (g, .panic)

/-- Lines 145-148 of `layout`: refresh the information view when the string changed. -/
def updateInformation (env : Env) (gui : Gui) : Gui :=
  if gui.PrevLayout.Information ≠ env.informationStr then
    let gui := gui.log (.SetViewContent env.Views.Information env.informationStr)
    { gui with PrevLayout := { gui.PrevLayout with Information := env.informationStr } }
  else gui

/-- The function `onInitialViewsCreation` (lines 250-275), the process-ready
sequence. The first event marks the call. -/
def onInitialViewsCreation (env : Env) (gui : Gui) : Gui × Option Error :=
  let gui := gui.log .onInitialViewsCreation
  let gui :=
    if !env.DisableStartupPopups then
      if env.storedPopupVersion < env.StartupPopupVersion then gui.log .showIntroPopupMessage
      else gui.log .showBreakingChangesMessage
    else gui
  let gui := gui.log .SaveAppStateAndLogError
  let r : Gui × Option Error :=
    if gui.showRecentRepos then
      let gui := gui.log .CreateRecentReposMenu
      match env.CreateRecentReposMenu with
      | some err => (gui, some err)
      | none => ({ gui with showRecentRepos := false }, none)
    else (gui, none)
  match r with
  | (gui, some err) => (gui, some err)
  | (gui, none) =>
    let gui := gui.log .CheckForUpdateInBackground
    let gui := gui.log .waitForIntroDone
    (gui, none)

/-- The function `onRepoViewReset` (lines 239-248): put the views on top of one
another in display order. The stacking order itself is not modelled. -/
def onRepoViewReset (env : Env) : List String → Gui → Gui × Option Error
  | [], gui => (gui, none)
  | view :: rest, gui =>
    let gui := gui.log (.SetViewOnTop view)
    match env.SetViewOnTop view with
    | some err => (gui, some err)
    | none => onRepoViewReset env rest gui

/-- The function `popupViewNames` (lines 229-237). -/
def popupViewNames (contexts : List Context) : List String :=
  (contexts.filter (fun c =>
    c.GetKind = .PERSISTENT_POPUP || c.GetKind = .TEMPORARY_POPUP)).map (fun c => c.GetViewName)

/-- The loop of lines 216-221: hide the popup views that exist. -/
def hidePopups : List String → Gocui → Gocui
  | [], g => g
  | viewName :: rest, g =>
    match g.View viewName with
    | .ok _ => hidePopups rest (g.modifyView viewName (fun view => { view with Visible := false }))
    | .error _ => hidePopups rest g

/-- The function `onInitialViewsCreationForRepo` (lines 210-227), the repo-ready
sequence. The first event marks the call. -/
def onInitialViewsCreationForRepo (env : Env) (gui : Gui) : Gui × Option Error :=
  let gui := gui.log .onInitialViewsCreationForRepo
  match onRepoViewReset env env.orderedViews gui with
  | (gui, some err) => (gui, some err)
  | (gui, none) =>
    let gui := { gui with g := hidePopups (popupViewNames env.contexts) gui.g }
    let gui := gui.log .Activate
    let gui := gui.log .loadNewRepo
    (gui, env.loadNewRepo)

/-- Lines 150-158 of `layout`: the process-level gate. -/
def processGate (env : Env) (gui : Gui) : Gui × Option Error :=
  if !gui.ViewsSetup then
    match onInitialViewsCreation env gui with
    | (gui, some err) => (gui, some err)
    | (gui, none) =>
      let gui := gui.log .handleTestMode
      ({ gui with ViewsSetup := true }, none)
  else (gui, none)

/-- Lines 160-166 of `layout`: the repository-level gate. -/
def repoGate (env : Env) (gui : Gui) : Gui × Option Error :=
  if !gui.StateViewsSetup then
    match onInitialViewsCreationForRepo env gui with
    | (gui, some err) => (gui, some err)
    | (gui, none) => ({ gui with StateViewsSetup := true }, none)
  else (gui, none)

/-- Lines 168-175 of `layout`: call the resize hook when the size of the main
view differs from the recorded one. A nil main view makes `Size` panic. -/
def resizeReaction (env : Env) (gui : Gui) : Gui × Result :=
  match gui.g.View env.Views.Main with
  | .error _ => (gui, .panic)
  | .ok main =>
    let mainViewWidth := main.Size.1
    let mainViewHeight := main.Size.2
    if mainViewWidth ≠ gui.PrevLayout.MainWidth ∨ mainViewHeight ≠ gui.PrevLayout.MainHeight then
      let gui := { gui with PrevLayout :=
        { gui.PrevLayout with MainWidth := mainViewWidth, MainHeight := mainViewHeight } }
      let gui := gui.log .onResize
      match env.onResize with
      | some err => (gui, .error err)
      | none => (gui, .ok)
    else (gui, .ok)

/-- Lines 177-179 of `layout`: `HandleRender` on every context marked for re-render. -/
def rerenderContexts : List Context → Gui → Gui
  | [], gui => gui
  | context :: rest, gui => rerenderContexts rest (gui.log (.HandleRender context))

/-- The closures that can be sent to the channel `gui.afterLayoutFuncs`, by
name: `run f s` is what the closure `f` does when it runs in state `s`: the
state it leaves, the closures it sends to the channel while it runs (in send
order), and its error. -/
abbrev DeferredActions (σ : Type) : Type := Nat → σ → σ × List Nat × Option Error

/-- The outcome of following the drain of the deferred actions: the state
reached, the actions that were run (in run order), the actions left in the
channel, the error that stopped the drain, if any, and whether the loop has
ended. -/
structure Drained (σ : Type) where
  state : σ
  executed : List Nat
  remaining : List Nat
  err : Option Error
  finished : Bool

/-- The loop of lines 189-199 of `layout`, followed for at most `fuel`
iterations: receive from `gui.afterLayoutFuncs` without blocking and run what
was received; stop at the first error, or when the channel is empty
(`default: break outer`). `queue` is the content of the channel; what an
action sends while it runs is behind the actions already in the channel when
the loop polls again. -/
def drainAfterLayoutFuncs {σ : Type} (run : DeferredActions σ) :
    Nat → List Nat → σ → Drained σ
  | 0, queue, s =>
    { state := s, executed := [], remaining := queue, err := none, finished := false }
  | _ + 1, [], s =>
    { state := s, executed := [], remaining := [], err := none, finished := true }
  | fuel + 1, f :: queue, s =>
    match run f s with
    | (s1, sent, some err) =>
      { state := s1, executed := [f], remaining := queue ++ sent, err := some err,
        finished := true }
    | (s1, sent, none) =>
      let d := drainAfterLayoutFuncs run fuel (queue ++ sent) s1
      { d with executed := f :: d.executed }

/-- Lines 12-187 of `layout`: the pass up to the drain of the deferred actions,
which this part does not touch. -/
def layoutStructural (env : Env) (gui : Gui) : Gui × Result :=
  match layoutStart env gui with
  | (gui, some err) => (gui, .error err)
  | (gui, none) =>
    let gui := { gui with g := { gui.g with Highlight := true } }
    let gui := readMoreLines env gui
    match bindContexts env.viewDimensions env.width env.height env.setViewFault env.contexts
        { g := gui.g, contextsToRerender := [] } with
    | (st, some err) => ({ gui with g := st.g }, .error err)
    | (st, none) =>
      let contextsToRerender := st.contextsToRerender
      match limitAndTooltip env st.g with
      | (g, .error err) => ({ gui with g := g }, .error err)
      | (g, .panic) => ({ gui with g := g }, .panic)
      | (g, .ok) =>
        match transientVisibility env.GetViewNameForWindow (transientContexts env.contexts) g with
        | (g, .error err) => ({ gui with g := g }, .error err)
        | (g, .panic) => ({ gui with g := g }, .panic)
        | (g, .ok) =>
          let gui := updateInformation env { gui with g := g }
          match processGate env gui with
          | (gui, some err) => (gui, .error err)
          | (gui, none) =>
            match repoGate env gui with
            | (gui, some err) => (gui, .error err)
            | (gui, none) =>
              match resizeReaction env gui with
              | (gui, .error err) => (gui, .error err)
              | (gui, .panic) => (gui, .panic)
              | (gui, .ok) =>
                let gui := rerenderContexts contextsToRerender gui
                let gui := gui.log .ResizeCurrentPopupPanels
                let gui := gui.log .renderContextOptionsMap
                (gui, .ok)

/-- The function `layout` (lines 12-202): one layout pass. `afterLayoutFuncs` is
the content of the channel of deferred actions when the pass starts, `run`
says what the deferred actions do and the drain is followed for at most
`fuel` iterations; the pass returns the state, the actions left in the
channel and how the pass ended (`return err` inside the drain, or the final
`return nil`), if it has. -/
def layout (env : Env) (run : DeferredActions Gui) (fuel : Nat) (afterLayoutFuncs : List Nat)
    (gui : Gui) : Gui × List Nat × Outcome :=
  match layoutStructural env gui with
  | (gui, .error err) => (gui, afterLayoutFuncs, .ended (.error err))
  | (gui, .panic) => (gui, afterLayoutFuncs, .ended .panic)
  | (gui, .ok) =>
    let d := drainAfterLayoutFuncs run fuel afterLayoutFuncs gui
    if !d.finished then (d.state, d.remaining, .running)
    else
      match d.err with
      | some err => (d.state, d.remaining, .ended (.error err))
      | none => (d.state, d.remaining, .ended .ok)

/-- What one layout pass is given: the answers of the collaborators, what the
deferred actions do, the number of drain iterations followed, and the content
of the channel of deferred actions when the pass starts. -/
structure Pass where
  env : Env
  run : DeferredActions Gui
  fuel : Nat
  queue : List Nat

/-- Consecutive layout passes; the sequence stops at the first pass that does
not end normally. -/
def layoutPasses : List Pass → Gui → Gui × Outcome
  | [], gui => (gui, .ended .ok)
  | p :: rest, gui =>
    match layout p.env p.run p.fuel p.queue gui with
    | (gui, _, .ended .ok) => layoutPasses rest gui
    | (gui, _, r) => (gui, r)

/-- The number of times the process-ready sequence `onInitialViewsCreation` was entered. -/
def processReadyRuns (gui : Gui) : Nat := gui.events.count .onInitialViewsCreation

/-- The number of times the repo-ready sequence `onInitialViewsCreationForRepo` was entered. -/
def repoReadyRuns (gui : Gui) : Nat := gui.events.count .onInitialViewsCreationForRepo

/-- The calls of `HandleRender` on a context recorded so far. -/
def handleRenderCalls (context : Context) (gui : Gui) : Nat :=
  gui.events.count (.HandleRender context)

/-! ## Scenes for whole passes -/

/-- A framed, visible, empty view of the given name with the bounds that
`prepareView` gives a new view. -/
def preparedView (name : String) : View :=
  { name := name, x0 := 0, y0 := 0, x1 := 10, y1 := 10, oy := 0,
    Frame := true, Visible := true, CanScrollPastBottom := false, buffer := "" }

/-- A context on the framed view "files" that re-renders when its width changes. -/
def filesWidthContext : Context :=
  { filesContext with
    NeedsRerenderOnWidthChange := .NEEDS_RERENDER_ON_WIDTH_CHANGE_WHEN_WIDTH_CHANGES }

/-- A context on the frameless view "options" that re-renders when its width changes. -/
def optionsWidthContext : Context :=
  { optionsContext with
    NeedsRerenderOnWidthChange := .NEEDS_RERENDER_ON_WIDTH_CHANGE_WHEN_WIDTH_CHANGES }

/-- Rectangles that give the windows "files" and "options" the width `w`. -/
def widthDimensions (w : Int) : String → Option Dimensions :=
  fun name =>
    if name = "files" then some ⟨0, 0, w - 1, 10⟩
    else if name = "options" then some ⟨0, 12, w - 1, 12⟩
    else if name = "main" then some ⟨0, 14, w - 1, 30⟩
    else none

/-- The view pointers of the scenes. -/
def sceneViews : Views :=
  { Main := "main", Secondary := "secondary", Limit := "limit", Tooltip := "tooltip",
    Menu := "menu", Information := "information" }

/-- Collaborators that never fail, on a terminal of 120 by 40 cells whose
windows "files" and "options" have the width `w`. -/
def sceneEnv (w : Int) (contexts : List Context) : Env :=
  { width := 120, height := 40, informationStr := "", viewDimensions := widthDimensions w,
    contexts := contexts, defaultSideViewName := "files", Views := sceneViews,
    hasViewBufferManager := fun _ => false, GetViewNameForWindow := fun w => w,
    setViewFault := noFault, DisableStartupPopups := false, storedPopupVersion := 0,
    StartupPopupVersion := 5, CreateRecentReposMenu := none, orderedViews := ["files", "main"],
    SetViewOnTop := fun _ => none, loadNewRepo := none, onResize := none }

/-- A freshly started `Gui`: all views prepared, both gates closed. -/
def sceneGui : Gui :=
  { g := { views := [filesView, optionsView, preparedView "main", preparedView "limit",
                     preparedView "tooltip", preparedView "menu"],
           currentView := none, Highlight := false },
    ViewsSetup := false, StateViewsSetup := false,
    PrevLayout := { Information := "", MainWidth := 0, MainHeight := 0 },
    showRecentRepos := false, events := [] }

/-- A controlled-bounds context whose view "ghost" has not been created. -/
def ghostContext : Context :=
  { filesWidthContext with GetViewName := "ghost", GetWindowName := "files" }

/-- A terminal-control surface that fails on the view "options". -/
def optionsFault : String → Option Error :=
  fun name => if name = "options" then some (.other "terminal failure") else none

/-- A window rectangle lies within the terminal `[0,width] x [0,height]`. -/
def Dimensions.within (d : Dimensions) (width height : Int) : Prop :=
  0 ≤ d.X0 ∧ d.X1 ≤ width ∧ 0 ≤ d.Y0 ∧ d.Y1 ≤ height

instance (d : Dimensions) (width height : Int) : Decidable (d.within width height) := by
  unfold Dimensions.within; infer_instance

/-- The bounds of a view lie within the terminal enlarged by `margin` cells on
every edge. -/
def View.boundsWithin (v : View) (margin width height : Int) : Prop :=
  -margin ≤ v.x0 ∧ v.x1 ≤ width + margin ∧ -margin ≤ v.y0 ∧ v.y1 ≤ height + margin

instance (v : View) (margin width height : Int) :
    Decidable (v.boundsWithin margin width height) := by
  unfold View.boundsWithin; infer_instance

/-- The bounds invariant that the binder keeps: a visible view lies within the
terminal enlarged by its frame offset (0 for a framed view, 1 for a frameless one). -/
def View.visibleWithin (v : View) (width height : Int) : Prop :=
  v.Visible = true → v.boundsWithin (frameOffset v) width height

/-- A transient context whose view "ghost" has not been created. -/
def ghostTransientContext : Context :=
  { GetViewName := "ghost", GetWindowName := "files", GetKind := .NORMAL,
    HasControlledBounds := false, IsTransient := true,
    NeedsRerenderOnWidthChange := .NEEDS_RERENDER_ON_WIDTH_CHANGE_NONE,
    NeedsRerenderOnHeightChange := false, TotalContentHeight := 0 }

/-- The state in which the next deferred action runs once the given actions
have run in order. -/
def runActions {σ : Type} (run : DeferredActions σ) : List Nat → σ → σ
  | [], s => s
  | f :: fs, s => runActions run fs (run f s).1

/-- The actions that the given actions send to the channel when they run in
order, in send order. -/
def sentBy {σ : Type} (run : DeferredActions σ) : List Nat → σ → List Nat
  | [], _ => []
  | f :: fs, s => (run f s).2.1 ++ sentBy run fs (run f s).1

/-- The error, if any, of the `i`-th action of a sequence when it runs after
the actions before it. -/
def errAt {σ : Type} (run : DeferredActions σ) (actions : List Nat) (s : σ) (i : Nat) :
    Option Error :=
  match actions.get? i with
  | some f => (run f (runActions run (actions.take i) s)).2.2
  | none => none

/-- The deferred actions that can run in a drain that starts with `queue` in
the channel: those in the channel, and those sent by an action that can run. -/
inductive Reachable {σ : Type} (run : DeferredActions σ) (queue : List Nat) : Nat → Prop where
  | queued (a : Nat) : a ∈ queue → Reachable run queue a
  | sent (a b : Nat) (s : σ) : Reachable run queue a → b ∈ (run a s).2.1 → Reachable run queue b

/-- Deferred actions on a record of labels. Actions 0, 1, 2 record "A", "B",
"C"; action 3 records "B" and fails; action 4 records "A" and sends action 5,
which records "D" and fails; action 6 sends itself again; action 7 records
"A" and sends action 8, which records "D". -/
def recordActions : DeferredActions (List String) :=
  fun f record =>
    match f with
    | 0 => (record ++ ["A"], [], none)
    | 1 => (record ++ ["B"], [], none)
    | 2 => (record ++ ["C"], [], none)
    | 3 => (record ++ ["B"], [], some (.other "B"))
    | 4 => (record ++ ["A"], [5], none)
    | 5 => (record ++ ["D"], [], some (.other "D"))
    | 6 => (record, [6], none)
    | 7 => (record ++ ["A"], [8], none)
    | 8 => (record ++ ["D"], [], none)
    | _ => (record, [], none)

/-- The transient context of the view "files" in the window "files". -/
def transientFilesContext : Context := { filesContext with IsTransient := true }

/-- The transient context of the view "options", sharing the window "files". -/
def transientOptionsContext : Context :=
  { optionsContext with IsTransient := true, GetWindowName := "files" }

/-- Two states agree on the gates and on the counts of the one-shot sequences. -/
def sameLifecycle (a b : Gui) : Prop :=
  a.ViewsSetup = b.ViewsSetup ∧ a.StateViewsSetup = b.StateViewsSetup ∧
    processReadyRuns a = processReadyRuns b ∧ repoReadyRuns a = repoReadyRuns b

/-- The deferred actions that can run in a drain of `queue` leave the two
gates and the counts of the one-shot sequences alone: gates are reset and
sequences are run outside the actions. -/
def preservesLifecycle (run : DeferredActions Gui) (queue : List Nat) : Prop :=
  ∀ a, Reachable run queue a → ∀ gui, sameLifecycle (run a gui).1 gui

/-- The deferred actions that can run in a drain of `queue` leave the
terminal-control surface alone. -/
def preservesSurface (run : DeferredActions Gui) (queue : List Nat) : Prop :=
  ∀ a, Reachable run queue a → ∀ gui, (run a gui).1.g = gui.g

/-- Deferred actions on the `Gui`: action 0 records a call and fails, action 1
records a call and sends action 2, which records a call; the others do
nothing. -/
def guiActions : DeferredActions Gui :=
  fun f gui =>
    match f with
    | 0 => (gui.log .Activate, [], some (.other "deferred"))
    | 1 => (gui.log .Activate, [2], none)
    | 2 => (gui.log .renderContextOptionsMap, [], none)
    | _ => (gui, [], none)

/-- The passes of the lifecycle scene: `n` passes with unchanged collaborators;
in each pass the channel holds action 1 of `guiActions`. -/
def scenePasses (n : Nat) : List Pass :=
  List.replicate n
    { env := sceneEnv 80 [filesWidthContext, optionsWidthContext], run := guiActions,
      fuel := 5, queue := [1] }

/-- A transient popup context on the view "menu" in the window "menu". -/
def menuContext : Context :=
  { GetViewName := "menu", GetWindowName := "menu", GetKind := .TEMPORARY_POPUP,
    HasControlledBounds := false, IsTransient := true,
    NeedsRerenderOnWidthChange := .NEEDS_RERENDER_ON_WIDTH_CHANGE_NONE,
    NeedsRerenderOnHeightChange := false, TotalContentHeight := 0 }

/-- The object behind the view pointer after an error-free binder call for a
window with a rectangle: scrolled by lines 81-88, then given its bounds and
made visible by lines 107-115. -/
def boundView (view : View) (context : Context) (d : Dimensions) : View :=
  { clampView view context d with
    x0 := d.X0 - frameOffset view, y0 := d.Y0 - frameOffset view,
    x1 := d.X1 + frameOffset view, y1 := d.Y1 + frameOffset view, Visible := true }

/-- The collaborators of a pass over the transient contexts of "files" and
"options", which share the window "files" occupied by "options", and over the
transient popup context of "menu", the occupant of the window "menu". -/
def transientEnv : Env :=
  { sceneEnv 80 [transientFilesContext, transientOptionsContext, menuContext] with
    GetViewNameForWindow := fun w => if w = "menu" then "menu" else "options" }
/-! ## Lemmas on the surface -/

theorem View_eq_ok_iff (g : Gocui) (name : String) (v : View) :
    g.View name = .ok v ↔ g.views.find? (fun v => v.name == name) = some v := by
  unfold Gocui.View
  cases h : g.views.find? (fun v => v.name == name) <;> simp

theorem View_ok_name (g : Gocui) (name : String) (v : View) (h : g.View name = .ok v) :
    v.name = name := by
  rw [View_eq_ok_iff] at h
  have := List.find?_some h
  simpa using this

theorem find_modifyFirst (name other : String) (f : View → View)
    (hf : ∀ v, (f v).name = v.name) :
    ∀ (vs : List View), (modifyFirst name f vs).find? (fun v => v.name == other) =
      if other = name then (vs.find? (fun v => v.name == name)).map f
      else vs.find? (fun v => v.name == other)
  | [] => by simp [modifyFirst]
  | w :: ws => by
    have ih := find_modifyFirst name other f hf ws
    by_cases hw : w.name = name
    · by_cases ho : other = name
      · subst ho; simp [modifyFirst, hw, List.find?_cons, hf]
      · have h1 : (name == other) = false := by
          simp only [beq_eq_false_iff_ne, ne_eq]; exact fun h => ho h.symm
        simp [modifyFirst, hw, List.find?_cons, hf, ho, h1]
    · have hw' : (w.name == name) = false := by simpa using hw
      by_cases ho : other = name
      · subst ho
        simp only [if_true] at ih
        simp [modifyFirst, hw', List.find?_cons, ih]
      · simp only [if_neg ho] at ih
        simp [modifyFirst, hw', List.find?_cons, ih, ho]

theorem View_modifyView (g : Gocui) (name other : String) (f : View → View)
    (hf : ∀ v, (f v).name = v.name) :
    (g.modifyView name f).View other =
      if other = name then (g.View name).map f else g.View other := by
  unfold Gocui.View Gocui.modifyView
  simp only [find_modifyFirst name other f hf]
  by_cases ho : other = name
  · subst ho
    cases h : g.views.find? (fun v => v.name == other) <;> simp [Except.map]
  · simp [ho]


theorem SetView_of_View_ok (g : Gocui) (fault : String → Option Error) (name : String)
    (x0 y0 x1 y1 : Int) (v : View) (h : g.View name = .ok v) :
    g.SetView fault name x0 y0 x1 y1 =
      if name = "" then (g, some (.other "invalid name"))
      else
        match fault name with
        | some e => (g, some e)
        | none =>
          (g.modifyView name (fun v => { v with x0 := x0, y0 := y0, x1 := x1, y1 := y1 }), none) := by
  simp only [Gocui.SetView, h]

theorem SetView_View (g : Gocui) (fault : String → Option Error) (name : String)
    (x0 y0 x1 y1 : Int) (v : View) (h : g.View name = .ok v) :
    (g.SetView fault name x0 y0 x1 y1).1.View name =
      .ok (if (g.SetView fault name x0 y0 x1 y1).2 = none
        then { v with x0 := x0, y0 := y0, x1 := x1, y1 := y1 } else v) := by
  rw [SetView_of_View_ok g fault name x0 y0 x1 y1 v h]
  by_cases hn : name = ""
  · simp [hn] at h ⊢; exact h
  · simp only [if_neg hn]
    cases hf : fault name with
    | some e => simpa using h
    | none =>
      simp only [if_true]
      rw [View_modifyView, if_pos rfl, h]
      · rfl
      · intro _; rfl

theorem SetView_View_other (g : Gocui) (fault : String → Option Error) (name other : String)
    (x0 y0 x1 y1 : Int) (v : View) (h : g.View name = .ok v) (hne : other ≠ name) :
    (g.SetView fault name x0 y0 x1 y1).1.View other = g.View other := by
  rw [SetView_of_View_ok g fault name x0 y0 x1 y1 v h]
  by_cases hn : name = ""
  · simp [hn]
  · simp only [if_neg hn]
    cases hf : fault name with
    | some e => rfl
    | none =>
      simp only
      rw [View_modifyView, if_neg hne]
      intro _; rfl

theorem ScrollUp_oy (v : View) (amount : Int) :
    (v.ScrollUp amount).oy = if amount > v.oy then 0 else v.oy - amount := by
  unfold View.ScrollUp
  dsimp only
  split_ifs <;> simp_all

theorem ScrollUp_fields (v : View) (amount : Int) :
    (v.ScrollUp amount).name = v.name ∧ (v.ScrollUp amount).x0 = v.x0 ∧
    (v.ScrollUp amount).y0 = v.y0 ∧ (v.ScrollUp amount).x1 = v.x1 ∧
    (v.ScrollUp amount).y1 = v.y1 ∧ (v.ScrollUp amount).Frame = v.Frame ∧
    (v.ScrollUp amount).CanScrollPastBottom = v.CanScrollPastBottom ∧
    (v.ScrollUp amount).buffer = v.buffer ∧ (v.ScrollUp amount).Visible = v.Visible := by
  unfold View.ScrollUp
  dsimp only
  split_ifs <;> simp


theorem clampView_fields (view : View) (c : Context) (d : Dimensions) :
    (clampView view c d).name = view.name ∧ (clampView view c d).x0 = view.x0 ∧
    (clampView view c d).y0 = view.y0 ∧ (clampView view c d).x1 = view.x1 ∧
    (clampView view c d).y1 = view.y1 ∧ (clampView view c d).Frame = view.Frame ∧
    (clampView view c d).CanScrollPastBottom = view.CanScrollPastBottom ∧
    (clampView view c d).buffer = view.buffer ∧ (clampView view c d).Visible = view.Visible := by
  unfold clampView
  split
  · exact ScrollUp_fields _ _
  · simp

/-- The binder on a context whose view exists and whose window has a rectangle. -/
theorem setViewFromDimensions_some (vd : String → Option Dimensions) (width height : Int)
    (fault : String → Option Error) (c : Context) (st : BindState) (view : View) (d : Dimensions)
    (hview : st.g.View c.GetViewName = .ok view) (hdim : vd c.GetWindowName = some d) :
    setViewFromDimensions vd width height fault c st =
      (let g1 := if view.OriginY > maxOriginY view c d then
          st.g.modifyView c.GetViewName (fun v => v.ScrollUp (view.OriginY - maxOriginY view c d))
        else st.g
       let r := g1.SetView fault c.GetViewName (d.X0 - frameOffset view) (d.Y0 - frameOffset view)
          (d.X1 + frameOffset view) (d.Y1 + frameOffset view)
       ({ g := r.1.modifyView c.GetViewName (fun v => { v with Visible := true }),
          contextsToRerender :=
            if mustRerender view c d then st.contextsToRerender ++ [c]
            else st.contextsToRerender }, r.2)) := by
  simp only [setViewFromDimensions, hview, hdim]
  have hM : (if (!view.CanScrollPastBottom) = true then
      c.TotalContentHeight - (d.Y1 - d.Y0 + 2 * frameOffset view - 1)
      else c.TotalContentHeight) = maxOriginY view c d := by
    simp [maxOriginY, viewportHeight]
  rw [hM]
  have hC : (if view.OriginY > maxOriginY view c d then
      view.ScrollUp (view.OriginY - maxOriginY view c d) else view) = clampView view c d := rfl
  rw [hC]
  have hW : (clampView view c d).Width = view.Width := by
    simp [View.Width, (clampView_fields view c d)]
  have hH : (clampView view c d).Height = view.Height := by
    simp [View.Height, (clampView_fields view c d)]
  rw [hW, hH]
  congr 2
  unfold mustRerender
  cases c.NeedsRerenderOnHeightChange <;>
    by_cases h1 : c.NeedsRerenderOnWidthChange = .NEEDS_RERENDER_ON_WIDTH_CHANGE_WHEN_WIDTH_CHANGES <;>
    by_cases h2 : view.Width = d.X1 - d.X0 + 1 <;>
    by_cases h3 : view.Height = d.Y1 - d.Y0 + 1 <;>
    simp [h1, h2, h3]

theorem clampView_oy (view : View) (c : Context) (d : Dimensions) (ho : 0 ≤ view.OriginY) :
    (clampView view c d).OriginY = min view.OriginY (max 0 (maxOriginY view c d)) := by
  unfold clampView
  by_cases h : view.OriginY > maxOriginY view c d
  · rw [if_pos h]
    simp only [View.OriginY] at *
    rw [ScrollUp_oy]
    by_cases h2 : view.oy - maxOriginY view c d > view.oy
    · rw [if_pos h2]; omega
    · rw [if_neg h2]; omega
  · rw [if_neg h]
    simp only [View.OriginY] at *
    omega

/-- The view of a bound context after the binder ran on it. -/
theorem setViewFromDimensions_view (vd : String → Option Dimensions) (width height : Int)
    (fault : String → Option Error) (c : Context) (st : BindState) (view : View) (d : Dimensions)
    (hview : st.g.View c.GetViewName = .ok view) (hdim : vd c.GetWindowName = some d) :
    (setViewFromDimensions vd width height fault c st).1.g.View c.GetViewName =
      .ok { (if (setViewFromDimensions vd width height fault c st).2 = none then
              { clampView view c d with
                x0 := d.X0 - frameOffset view, y0 := d.Y0 - frameOffset view,
                x1 := d.X1 + frameOffset view, y1 := d.Y1 + frameOffset view }
            else clampView view c d) with Visible := true } := by
  rw [setViewFromDimensions_some vd width height fault c st view d hview hdim]
  simp only
  have hg1 : (if view.OriginY > maxOriginY view c d then
          st.g.modifyView c.GetViewName (fun v => v.ScrollUp (view.OriginY - maxOriginY view c d))
        else st.g).View c.GetViewName = .ok (clampView view c d) := by
    unfold clampView
    by_cases h : view.OriginY > maxOriginY view c d
    · rw [if_pos h, if_pos h, View_modifyView, if_pos rfl, hview]
      · rfl
      · intro v; exact (ScrollUp_fields v _).1
    · rw [if_neg h, if_neg h, hview]
  rw [View_modifyView, if_pos rfl, SetView_View _ _ _ _ _ _ _ _ hg1]
  · rfl
  · intro _; rfl

theorem names_modifyFirst (name : String) (f : View → View) (hf : ∀ v, (f v).name = v.name) :
    ∀ vs : List View, (modifyFirst name f vs).map View.name = vs.map View.name
  | [] => rfl
  | w :: ws => by
    by_cases hw : (w.name == name) = true
    · simp [modifyFirst, hw, hf]
    · simp [modifyFirst, hw, names_modifyFirst name f hf ws]

theorem View_ok_iff_mem (g : Gocui) (n : String) :
    (∃ v, g.View n = .ok v) ↔ n ∈ g.views.map View.name := by
  unfold Gocui.View
  cases h : g.views.find? (fun v => v.name == n) with
  | none =>
    simp only [exists_false, false_iff, reduceCtorEq]
    rw [List.find?_eq_none] at h
    intro hm
    obtain ⟨v, hv, hvn⟩ := List.mem_map.1 hm
    exact h v hv (by simpa using hvn)
  | some v =>
    have h1 := List.find?_some h
    have h2 := List.mem_of_find?_eq_some h
    simp only [Except.ok.injEq, exists_eq', true_iff]
    exact List.mem_map.2 ⟨v, h2, by simpa using h1⟩

theorem View_error_iff (g : Gocui) (n : String) (e : Error) :
    g.View n = .error e ↔ (e = .ErrUnknownView ∧ n ∉ g.views.map View.name) := by
  rw [← View_ok_iff_mem]
  unfold Gocui.View
  cases h : g.views.find? (fun v => v.name == n) with
  | none => simp; exact eq_comm
  | some v => simp

theorem SetView_names (g : Gocui) (fault : String → Option Error) (name : String)
    (x0 y0 x1 y1 : Int) (v : View) (h : g.View name = .ok v) :
    (g.SetView fault name x0 y0 x1 y1).1.views.map View.name = g.views.map View.name := by
  rw [SetView_of_View_ok g fault name x0 y0 x1 y1 v h]
  by_cases hn : name = ""
  · simp [hn]
  · simp only [if_neg hn]
    cases hf : fault name with
    | some e => rfl
    | none =>
      apply names_modifyFirst
      intro _; rfl

/-- The binder never creates or renames a view. -/
theorem setViewFromDimensions_names (vd : String → Option Dimensions) (width height : Int)
    (fault : String → Option Error) (c : Context) (st : BindState) :
    (setViewFromDimensions vd width height fault c st).1.g.views.map View.name =
      st.g.views.map View.name := by
  cases hview : st.g.View c.GetViewName with
  | error e => simp [setViewFromDimensions, hview]
  | ok view =>
    cases hdim : vd c.GetWindowName with
    | none =>
      simp only [setViewFromDimensions, hview, hdim, Gocui.modifyView]
      rw [names_modifyFirst]
      · exact SetView_names _ _ _ _ _ _ _ view hview
      · intro _; rfl
    | some d =>
      rw [setViewFromDimensions_some vd width height fault c st view d hview hdim]
      simp only []
      unfold Gocui.modifyView
      simp only []
      rw [names_modifyFirst]
      · by_cases h : view.OriginY > maxOriginY view c d
        · simp only [if_pos h]
          have hg1 : (st.g.modifyView c.GetViewName
              (fun v => v.ScrollUp (view.OriginY - maxOriginY view c d))).View c.GetViewName =
              .ok (view.ScrollUp (view.OriginY - maxOriginY view c d)) := by
            rw [View_modifyView, if_pos rfl, hview]
            · rfl
            · intro v; exact (ScrollUp_fields v _).1
          have := SetView_names _ fault _ (d.X0 - frameOffset view) (d.Y0 - frameOffset view)
            (d.X1 + frameOffset view) (d.Y1 + frameOffset view) _ hg1
          unfold Gocui.modifyView at this
          rw [this]
          apply names_modifyFirst
          intro v; exact (ScrollUp_fields v _).1
        · simp only [if_neg h]
          exact SetView_names _ _ _ _ _ _ _ view hview
      · intro _; rfl

/-- A context whose view is unknown leaves the binder's state untouched. -/
theorem setViewFromDimensions_unknown (vd : String → Option Dimensions) (width height : Int)
    (fault : String → Option Error) (c : Context) (st : BindState) (e : Error)
    (h : st.g.View c.GetViewName = .error e) :
    setViewFromDimensions vd width height fault c st = (st, some e) := by
  simp [setViewFromDimensions, h]

/-- The binder appends at most the context itself, and only when its view exists. -/
theorem setViewFromDimensions_rerender (vd : String → Option Dimensions) (width height : Int)
    (fault : String → Option Error) (c : Context) (st : BindState) :
    (setViewFromDimensions vd width height fault c st).1.contextsToRerender =
        st.contextsToRerender ∨
      ((setViewFromDimensions vd width height fault c st).1.contextsToRerender =
        st.contextsToRerender ++ [c] ∧ ∃ v, st.g.View c.GetViewName = .ok v) := by
  cases hview : st.g.View c.GetViewName with
  | error e => simp [setViewFromDimensions, hview]
  | ok view =>
    cases hdim : vd c.GetWindowName with
    | none => simp [setViewFromDimensions, hview, hdim]
    | some d =>
      rw [setViewFromDimensions_some vd width height fault c st view d hview hdim]
      by_cases hm : mustRerender view c d = true
      · right; simp [hm]
      · left; simp [hm]

/-! ## Lemmas on the binding loop -/

theorem bindContexts_names (vd : String → Option Dimensions) (width height : Int)
    (fault : String → Option Error) :
    ∀ (cs : List Context) (st : BindState),
      (bindContexts vd width height fault cs st).1.g.views.map View.name =
        st.g.views.map View.name
  | [], st => rfl
  | c :: rest, st => by
    unfold bindContexts
    by_cases hc : c.HasControlledBounds = true
    · simp only [hc, Bool.not_true, Bool.false_eq_true, if_false]
      have hn := setViewFromDimensions_names vd width height fault c st
      rcases hr : setViewFromDimensions vd width height fault c st with ⟨st1, _ | err⟩
      · rw [hr] at hn
        simp only
        rw [bindContexts_names vd width height fault rest st1]
        exact hn
      · rw [hr] at hn
        simp only
        by_cases he : err.isUnknownView = true
        · simp only [he, Bool.not_true, Bool.false_eq_true, if_false]
          rw [bindContexts_names vd width height fault rest st1]
          exact hn
        · simp only [he, Bool.not_false, if_true]
          exact hn
    · simp only [hc, Bool.not_false, if_true]
      exact bindContexts_names vd width height fault rest st

theorem bindContexts_cons (vd : String → Option Dimensions) (width height : Int)
    (fault : String → Option Error) (c : Context) (rest : List Context) (st : BindState) :
    bindContexts vd width height fault (c :: rest) st =
      if !c.HasControlledBounds then bindContexts vd width height fault rest st
      else
        match setViewFromDimensions vd width height fault c st with
        | (st1, some err) =>
          if !err.isUnknownView then (st1, some err)
          else bindContexts vd width height fault rest st1
        | (st1, none) => bindContexts vd width height fault rest st1 := by
  rw [bindContexts]

/-- The loop over a concatenation: the second part runs from where the first
part ended, unless the first part returned an error. -/
theorem bindContexts_append (vd : String → Option Dimensions) (width height : Int)
    (fault : String → Option Error) :
    ∀ (pre rest : List Context) (st : BindState),
      bindContexts vd width height fault (pre ++ rest) st =
        match bindContexts vd width height fault pre st with
        | (st1, none) => bindContexts vd width height fault rest st1
        | (st1, some err) => (st1, some err)
  | [], rest, st => by simp [bindContexts]
  | c :: pre, rest, st => by
    simp only [List.cons_append]
    rw [bindContexts_cons, bindContexts_cons]
    by_cases hc : c.HasControlledBounds = true
    · simp only [hc, Bool.not_true, Bool.false_eq_true, if_false]
      rcases hr : setViewFromDimensions vd width height fault c st with ⟨st1, _ | err⟩
      · simp only
        exact bindContexts_append vd width height fault pre rest st1
      · simp only
        by_cases he : err.isUnknownView = true
        · simp only [he, Bool.not_true, Bool.false_eq_true, if_false]
          exact bindContexts_append vd width height fault pre rest st1
        · simp only [he, Bool.not_false, if_true]
    · simp only [hc, Bool.not_false, if_true]
      exact bindContexts_append vd width height fault pre rest st

/-- A context whose view is unknown when the loop reaches it is skipped. -/
theorem bindContexts_cons_unknown (vd : String → Option Dimensions) (width height : Int)
    (fault : String → Option Error) (c : Context) (rest : List Context) (st : BindState)
    (h : st.g.View c.GetViewName = .error .ErrUnknownView) :
    bindContexts vd width height fault (c :: rest) st =
      bindContexts vd width height fault rest st := by
  rw [bindContexts]
  by_cases hc : c.HasControlledBounds = true
  · simp only [hc, Bool.not_true, Bool.false_eq_true, if_false]
    rw [setViewFromDimensions_unknown vd width height fault c st _ h]
    simp [Error.isUnknownView]
  · simp only [hc, Bool.not_false, if_true]

/-- Every context in the re-render list after the loop was there before or is a
context of the loop whose view exists. -/
theorem bindContexts_rerender_mem (vd : String → Option Dimensions) (width height : Int)
    (fault : String → Option Error) :
    ∀ (cs : List Context) (st : BindState) (x : Context),
      x ∈ (bindContexts vd width height fault cs st).1.contextsToRerender →
        x ∈ st.contextsToRerender ∨
          (x ∈ cs ∧ x.HasControlledBounds = true ∧ ∃ v, st.g.View x.GetViewName = .ok v)
  | [], st, x => by
    intro h; left; simpa [bindContexts] using h
  | c :: rest, st, x => by
    intro h
    rw [bindContexts] at h
    by_cases hc : c.HasControlledBounds = true
    · simp only [hc, Bool.not_true, Bool.false_eq_true, if_false] at h
      have hn := setViewFromDimensions_names vd width height fault c st
      have hrr := setViewFromDimensions_rerender vd width height fault c st
      rcases hr : setViewFromDimensions vd width height fault c st with ⟨st1, oerr⟩
      rw [hr] at h hn hrr
      simp only at hn hrr
      have key : x ∈ st1.contextsToRerender → x ∈ st.contextsToRerender ∨
          (x ∈ c :: rest ∧ x.HasControlledBounds = true ∧ ∃ v, st.g.View x.GetViewName = .ok v) := by
        intro hx
        rcases hrr with h1 | ⟨h1, hv⟩
        · left; rw [h1] at hx; exact hx
        · rw [h1, List.mem_append] at hx
          rcases hx with hx | hx
          · left; exact hx
          · right
            have : x = c := by simpa using hx
            subst this
            exact ⟨List.mem_cons_self _ _, hc, hv⟩
      have rec : x ∈ (bindContexts vd width height fault rest st1).1.contextsToRerender →
          x ∈ st.contextsToRerender ∨
          (x ∈ c :: rest ∧ x.HasControlledBounds = true ∧ ∃ v, st.g.View x.GetViewName = .ok v) := by
        intro hx
        rcases bindContexts_rerender_mem vd width height fault rest st1 x hx with h1 | ⟨h1, h2, h3⟩
        · exact key h1
        · right
          refine ⟨List.mem_cons_of_mem _ h1, h2, ?_⟩
          rw [View_ok_iff_mem] at h3 ⊢
          rw [← hn]; exact h3
      cases oerr with
      | none => exact rec h
      | some err =>
        simp only at h
        by_cases he : err.isUnknownView = true
        · simp only [he, Bool.not_true, Bool.false_eq_true, if_false] at h
          exact rec h
        · simp only [he, Bool.not_false, if_true] at h
          exact key h
    · simp only [hc, Bool.not_false, if_true] at h
      rcases bindContexts_rerender_mem vd width height fault rest st x h with h1 | ⟨h1, h2, h3⟩
      · left; exact h1
      · right; exact ⟨List.mem_cons_of_mem _ h1, h2, h3⟩

/-- The binder leaves the views of other names alone. -/
theorem setViewFromDimensions_View_other (vd : String → Option Dimensions) (width height : Int)
    (fault : String → Option Error) (c : Context) (st : BindState) (n : String)
    (hne : n ≠ c.GetViewName) :
    (setViewFromDimensions vd width height fault c st).1.g.View n = st.g.View n := by
  cases hview : st.g.View c.GetViewName with
  | error e => simp [setViewFromDimensions, hview]
  | ok view =>
    cases hdim : vd c.GetWindowName with
    | none =>
      simp only [setViewFromDimensions, hview, hdim]
      rw [View_modifyView, if_neg hne]
      · exact SetView_View_other _ _ _ _ _ _ _ _ view hview hne
      · intro _; rfl
    | some d =>
      rw [setViewFromDimensions_some vd width height fault c st view d hview hdim]
      simp only
      rw [View_modifyView, if_neg hne]
      · by_cases h : view.OriginY > maxOriginY view c d
        · simp only [if_pos h]
          have hg1 : (st.g.modifyView c.GetViewName
              (fun v => v.ScrollUp (view.OriginY - maxOriginY view c d))).View c.GetViewName =
              .ok (view.ScrollUp (view.OriginY - maxOriginY view c d)) := by
            rw [View_modifyView, if_pos rfl, hview]
            · rfl
            · intro v; exact (ScrollUp_fields v _).1
          rw [SetView_View_other _ _ _ _ _ _ _ _ _ hg1 hne, View_modifyView, if_neg hne]
          intro v; exact (ScrollUp_fields v _).1
        · simp only [if_neg h]
          exact SetView_View_other _ _ _ _ _ _ _ _ view hview hne
      · intro _; rfl

/-- The view of a context whose window has no rectangle, after the binder ran on it. -/
theorem setViewFromDimensions_view_none (vd : String → Option Dimensions) (width height : Int)
    (fault : String → Option Error) (c : Context) (st : BindState) (view : View)
    (hview : st.g.View c.GetViewName = .ok view) (hdim : vd c.GetWindowName = none) :
    (setViewFromDimensions vd width height fault c st).1.g.View c.GetViewName =
      .ok { (if (setViewFromDimensions vd width height fault c st).2 = none then
              { view with x0 := 0, y0 := 0, x1 := width, y1 := height }
            else view) with Visible := false } := by
  simp only [setViewFromDimensions, hview, hdim]
  rw [View_modifyView, if_pos rfl, SetView_View _ _ _ _ _ _ _ _ hview]
  · rfl
  · intro _; rfl

/-- An error returned by the binder for a view that exists is never the
unknown-view error, unless the surface itself reports it. -/
theorem setViewFromDimensions_err (vd : String → Option Dimensions) (width height : Int)
    (fault : String → Option Error) (c : Context) (st : BindState) (view : View) (e : Error)
    (hview : st.g.View c.GetViewName = .ok view)
    (he : (setViewFromDimensions vd width height fault c st).2 = some e) :
    e = .other "invalid name" ∨ fault c.GetViewName = some e := by
  have key : ∀ (g : Gocui) (v : View) (x0 y0 x1 y1 : Int), g.View c.GetViewName = .ok v →
      (g.SetView fault c.GetViewName x0 y0 x1 y1).2 = some e →
      e = .other "invalid name" ∨ fault c.GetViewName = some e := by
    intro g v x0 y0 x1 y1 hv hs
    rw [SetView_of_View_ok g fault _ x0 y0 x1 y1 v hv] at hs
    by_cases hn : c.GetViewName = ""
    · left; simp [hn] at hs; exact hs.symm
    · right
      simp only [if_neg hn] at hs
      cases hf : fault c.GetViewName with
      | none => simp [hf] at hs
      | some e2 => simp [hf] at hs; rw [hs]
  cases hdim : vd c.GetWindowName with
  | none =>
    simp only [setViewFromDimensions, hview, hdim] at he
    exact key _ _ _ _ _ _ hview he
  | some d =>
    rw [setViewFromDimensions_some vd width height fault c st view d hview hdim] at he
    simp only at he
    by_cases h : view.OriginY > maxOriginY view c d
    · simp only [if_pos h] at he
      refine key _ (view.ScrollUp (view.OriginY - maxOriginY view c d)) _ _ _ _ ?_ he
      rw [View_modifyView, if_pos rfl, hview]
      · rfl
      · intro v; exact (ScrollUp_fields v _).1
    · simp only [if_neg h] at he
      exact key _ _ _ _ _ _ hview he

/-- One binder call establishes the bounds invariant for the view of its context
and keeps it for the other views. -/
theorem setViewFromDimensions_within (vd : String → Option Dimensions) (width height : Int)
    (fault : String → Option Error) (c : Context) (st : BindState) (n : String)
    (hfault : fault c.GetViewName ≠ some .ErrUnknownView)
    (hr : (setViewFromDimensions vd width height fault c st).2 = none ∨
      (setViewFromDimensions vd width height fault c st).2 = some .ErrUnknownView)
    (hwithin : c.GetViewName = n → ∀ d, vd c.GetWindowName = some d → d.within width height)
    (h : (∀ w, st.g.View n = .ok w → w.visibleWithin width height) ∨ c.GetViewName = n) :
    ∀ w, (setViewFromDimensions vd width height fault c st).1.g.View n = .ok w →
      w.visibleWithin width height := by
  intro w hw
  by_cases hn : n = c.GetViewName
  · subst hn
    cases hview : st.g.View c.GetViewName with
    | error e =>
      rw [setViewFromDimensions_unknown vd width height fault c st e hview] at hw
      simp only at hw
      rw [hview] at hw; cases hw
    | ok view =>
      have hnone : (setViewFromDimensions vd width height fault c st).2 = none := by
        rcases hr with hr | hr
        · exact hr
        · rcases setViewFromDimensions_err vd width height fault c st view _ hview hr with h1 | h1
          · cases h1
          · exact absurd h1 hfault
      cases hdim : vd c.GetWindowName with
      | none =>
        rw [setViewFromDimensions_view_none vd width height fault c st view hview hdim] at hw
        injection hw with hw
        subst hw
        intro hv
        simp at hv
      | some d =>
        rw [setViewFromDimensions_view vd width height fault c st view d hview hdim,
          if_pos hnone] at hw
        injection hw with hw
        subst hw
        intro _
        have hd := hwithin rfl d hdim
        have hF : (clampView view c d).Frame = view.Frame := (clampView_fields view c d).2.2.2.2.2.1
        unfold Dimensions.within at hd
        unfold View.boundsWithin frameOffset
        simp only [hF]
        by_cases hfr : view.Frame = true
        · simp only [hfr, if_true]; omega
        · simp only [hfr]; simp only [Bool.false_eq_true, if_false]; omega
  · rw [setViewFromDimensions_View_other vd width height fault c st n hn] at hw
    rcases h with h | h
    · exact h w hw
    · exact absurd h.symm hn

/-- An error-free binding pass establishes the bounds invariant for every view
named by a controlled-bounds context of the pass and keeps it elsewhere. -/
theorem bindContexts_within (vd : String → Option Dimensions) (width height : Int)
    (fault : String → Option Error) (n : String)
    (hfault : ∀ name, fault name ≠ some .ErrUnknownView) :
    ∀ (cs : List Context) (st : BindState),
      (bindContexts vd width height fault cs st).2 = none →
      (∀ c ∈ cs, c.GetViewName = n → ∀ d, vd c.GetWindowName = some d →
        d.within width height) →
      ((∀ w, st.g.View n = .ok w → w.visibleWithin width height) ∨
        ∃ c ∈ cs, c.HasControlledBounds = true ∧ c.GetViewName = n) →
      ∀ w, (bindContexts vd width height fault cs st).1.g.View n = .ok w →
        w.visibleWithin width height
  | [], st => by
    intro _ _ h w hw
    rcases h with h | ⟨c, hc, _⟩
    · exact h w hw
    · cases hc
  | c :: rest, st => by
    intro hok hwithin h
    rw [bindContexts_cons] at hok ⊢
    have hrest : ∀ c2 ∈ rest, c2.GetViewName = n → ∀ d, vd c2.GetWindowName = some d →
        d.within width height := fun c2 h2 => hwithin c2 (List.mem_cons_of_mem _ h2)
    by_cases hc : c.HasControlledBounds = true
    · simp only [hc, Bool.not_true, Bool.false_eq_true, if_false] at hok ⊢
      have hcall := setViewFromDimensions_within vd width height fault c st n
        (hfault _)
      rcases hr : setViewFromDimensions vd width height fault c st with ⟨st1, oerr⟩
      rw [hr] at hok hcall
      simp only at hok hcall ⊢
      have hstep : ∀ (_ : oerr = none ∨ oerr = some .ErrUnknownView),
          (∀ w, st1.g.View n = .ok w → w.visibleWithin width height) ∨
            ∃ c2 ∈ rest, c2.HasControlledBounds = true ∧ c2.GetViewName = n := by
        intro ho
        rcases h with h | ⟨c2, hc2, hcb, hcn⟩
        · left; exact hcall ho (hwithin c (List.mem_cons_self _ _)) (Or.inl h)
        · rcases List.mem_cons.1 hc2 with heq | hin
          · subst heq
            left; exact hcall ho (hwithin c2 (List.mem_cons_self _ _)) (Or.inr hcn)
          · right; exact ⟨c2, hin, hcb, hcn⟩
      cases oerr with
      | none =>
        simp only at hok ⊢
        exact bindContexts_within vd width height fault n hfault rest st1 hok hrest
          (hstep (Or.inl rfl))
      | some err =>
        simp only at hok ⊢
        cases err with
        | ErrUnknownView =>
          simp only [Error.isUnknownView, Bool.not_true, Bool.false_eq_true, if_false] at hok ⊢
          exact bindContexts_within vd width height fault n hfault rest st1 hok hrest
            (hstep (Or.inr rfl))
        | other m =>
          simp [Error.isUnknownView] at hok
    · simp only [hc, Bool.not_false, if_true] at hok ⊢
      refine bindContexts_within vd width height fault n hfault rest st hok hrest ?_
      rcases h with h | ⟨c2, hc2, hcb, hcn⟩
      · left; exact h
      · rcases List.mem_cons.1 hc2 with heq | hin
        · subst heq; exact absurd hcb hc
        · right; exact ⟨c2, hin, hcb, hcn⟩

/-! ## Lemmas on the transient-visibility loop -/

theorem transientVisibility_cons (occ : String → String) (c : Context) (rest : List Context)
    (g : Gocui) :
    transientVisibility occ (c :: rest) g =
      match g.View c.GetViewName with
      | .error err => if !err.isUnknownView then (g, .error err) else (g, .panic)
      | .ok _ =>
        transientVisibility occ rest
          (g.modifyView c.GetViewName (fun view =>
            { view with Visible := decide (occ c.GetWindowName = c.GetViewName) })) := by
  rw [transientVisibility]

/-- A transient context whose view is unknown makes the loop panic. -/
theorem transientVisibility_unknown (occ : String → String) (c : Context) (rest : List Context)
    (g : Gocui) (h : g.View c.GetViewName = .error .ErrUnknownView) :
    transientVisibility occ (c :: rest) g = (g, .panic) := by
  rw [transientVisibility_cons, h]
  rfl

theorem modifyView_names (g : Gocui) (name : String) (f : View → View)
    (hf : ∀ v, (f v).name = v.name) :
    (g.modifyView name f).views.map View.name = g.views.map View.name :=
  names_modifyFirst name f hf g.views

/-- When the views of all contexts of the loop exist, the loop ends normally,
leaves the views of other names alone, and gives the view of each context the
verdict of the window-ownership authority, provided contexts that name the
same view name the same window. -/
theorem transientVisibility_spec (occ : String → String) :
    ∀ (cs : List Context) (g : Gocui),
      (∀ c ∈ cs, ∃ v, g.View c.GetViewName = .ok v) →
      (∀ c1 ∈ cs, ∀ c2 ∈ cs, c1.GetViewName = c2.GetViewName →
        c1.GetWindowName = c2.GetWindowName) →
      ∃ g1, transientVisibility occ cs g = (g1, .ok) ∧
        g1.views.map View.name = g.views.map View.name ∧
        (∀ n, n ∉ cs.map (fun c => c.GetViewName) → g1.View n = g.View n) ∧
        ∀ c ∈ cs, ∃ w, g1.View c.GetViewName = .ok w ∧
          w.Visible = decide (occ c.GetWindowName = c.GetViewName)
  | [], g => by
    intro _ _
    exact ⟨g, rfl, rfl, fun _ _ => rfl, fun c hc => by cases hc⟩
  | c0 :: rest, g => by
    intro hex hwf
    obtain ⟨v0, hv0⟩ := hex c0 (List.mem_cons_self _ _)
    have hnames := modifyView_names g c0.GetViewName
      (fun view => { view with Visible := decide (occ c0.GetWindowName = c0.GetViewName) })
      (fun _ => rfl)
    have hex1 : ∀ c ∈ rest, ∃ v, (g.modifyView c0.GetViewName (fun view =>
        { view with Visible := decide (occ c0.GetWindowName = c0.GetViewName) })).View
          c.GetViewName = .ok v := by
      intro c hc
      rw [View_ok_iff_mem, hnames, ← View_ok_iff_mem]
      exact hex c (List.mem_cons_of_mem _ hc)
    obtain ⟨g1, hrun, hn1, hother, hverdict⟩ := transientVisibility_spec occ rest _ hex1
      (fun c1 h1 c2 h2 => hwf c1 (List.mem_cons_of_mem _ h1) c2 (List.mem_cons_of_mem _ h2))
    refine ⟨g1, ?_, ?_, ?_, ?_⟩
    · rw [transientVisibility_cons, hv0]
      exact hrun
    · rw [hn1, hnames]
    · intro n hn
      simp only [List.map_cons, List.mem_cons, not_or] at hn
      rw [hother n hn.2, View_modifyView, if_neg hn.1]
      intro _; rfl
    · intro c hc
      rcases List.mem_cons.1 hc with heq | hin
      · subst heq
        by_cases hmem : c.GetViewName ∈ rest.map (fun c => c.GetViewName)
        · obtain ⟨c2, hc2, hc2n⟩ := List.mem_map.1 hmem
          obtain ⟨w, hw, hvis⟩ := hverdict c2 hc2
          have hwin := hwf c2 (List.mem_cons_of_mem _ hc2) c (List.mem_cons_self _ _) hc2n
          refine ⟨w, ?_, ?_⟩
          · rw [← hc2n]; exact hw
          · rw [hvis, hwin, hc2n]
        · refine ⟨{ v0 with Visible := decide (occ c.GetWindowName = c.GetViewName) }, ?_, rfl⟩
          rw [hother _ hmem, View_modifyView, if_pos rfl, hv0]
          · rfl
          · intro _; rfl
      · exact hverdict c hin

/-! ## Lemmas on the gates -/

theorem sameLifecycle_refl (a : Gui) : sameLifecycle a a := ⟨rfl, rfl, rfl, rfl⟩

theorem sameLifecycle_trans {a b c : Gui} (h1 : sameLifecycle a b) (h2 : sameLifecycle b c) :
    sameLifecycle a c :=
  ⟨h1.1.trans h2.1, h1.2.1.trans h2.2.1, h1.2.2.1.trans h2.2.2.1, h1.2.2.2.trans h2.2.2.2⟩

theorem sameLifecycle_log (gui : Gui) (e : Event) (h1 : e ≠ .onInitialViewsCreation)
    (h2 : e ≠ .onInitialViewsCreationForRepo) : sameLifecycle (gui.log e) gui := by
  refine ⟨rfl, rfl, ?_, ?_⟩
  · simp [processReadyRuns, Gui.log, List.count_append, List.count_singleton, h1]
  · simp [repoReadyRuns, Gui.log, List.count_append, List.count_singleton, h2]

theorem sameLifecycle_setG (gui : Gui) (g : Gocui) : sameLifecycle { gui with g := g } gui :=
  ⟨rfl, rfl, rfl, rfl⟩

theorem layoutStart_lifecycle (env : Env) (gui : Gui) :
    sameLifecycle (layoutStart env gui).1 gui := by
  unfold layoutStart
  split
  · exact sameLifecycle_trans (sameLifecycle_setG _ _)
      (sameLifecycle_log gui _ (by decide) (by decide))
  · exact sameLifecycle_refl _

theorem readMoreLines_lifecycle (env : Env) (gui : Gui) :
    sameLifecycle (readMoreLines env gui) gui := by
  unfold readMoreLines
  split
  · exact sameLifecycle_refl _
  · simp only
    split
    · split
      · refine sameLifecycle_trans (sameLifecycle_log _ _ (by simp) (by simp)) ?_
        split
        · exact sameLifecycle_log _ _ (by simp) (by simp)
        · exact sameLifecycle_refl _
      · split
        · exact sameLifecycle_log _ _ (by simp) (by simp)
        · exact sameLifecycle_refl _
    · exact sameLifecycle_refl _

theorem updateInformation_lifecycle (env : Env) (gui : Gui) :
    sameLifecycle (updateInformation env gui) gui := by
  unfold updateInformation
  split
  · exact sameLifecycle_trans ⟨rfl, rfl, rfl, rfl⟩ (sameLifecycle_log gui _ (by simp) (by simp))
  · exact sameLifecycle_refl _

theorem resizeReaction_lifecycle (env : Env) (gui : Gui) :
    sameLifecycle (resizeReaction env gui).1 gui := by
  unfold resizeReaction
  split
  · exact sameLifecycle_refl _
  · simp only
    split
    · split <;>
        simp [sameLifecycle, processReadyRuns, repoReadyRuns, Gui.log, List.count_append,
          List.count_singleton]
    · exact sameLifecycle_refl _

theorem rerenderContexts_lifecycle :
    ∀ (cs : List Context) (gui : Gui), sameLifecycle (rerenderContexts cs gui) gui
  | [], gui => sameLifecycle_refl _
  | c :: rest, gui => by
    rw [rerenderContexts]
    exact sameLifecycle_trans (rerenderContexts_lifecycle rest _)
      (sameLifecycle_log gui _ (by simp) (by simp))

theorem onInitialViewsCreation_lifecycle (env : Env) (gui : Gui) :
    (onInitialViewsCreation env gui).1.ViewsSetup = gui.ViewsSetup ∧
    (onInitialViewsCreation env gui).1.StateViewsSetup = gui.StateViewsSetup ∧
    processReadyRuns (onInitialViewsCreation env gui).1 = processReadyRuns gui + 1 ∧
    repoReadyRuns (onInitialViewsCreation env gui).1 = repoReadyRuns gui := by
  unfold onInitialViewsCreation
  rcases hd : env.DisableStartupPopups with _ | _ <;>
    rcases hs : gui.showRecentRepos with _ | _ <;>
    rcases hc : env.CreateRecentReposMenu with _ | e <;>
    by_cases h : env.storedPopupVersion < env.StartupPopupVersion <;>
    simp [h, hd, hs, hc, processReadyRuns, repoReadyRuns, Gui.log, List.count_append,
      List.count_singleton]

theorem processGate_lifecycle (env : Env) (gui : Gui) (h : (processGate env gui).2 = none) :
    (processGate env gui).1.ViewsSetup = true ∧
    (processGate env gui).1.StateViewsSetup = gui.StateViewsSetup ∧
    processReadyRuns (processGate env gui).1 =
      processReadyRuns gui + (if gui.ViewsSetup then 0 else 1) ∧
    repoReadyRuns (processGate env gui).1 = repoReadyRuns gui := by
  obtain ⟨h1, h2, h3, h4⟩ := onInitialViewsCreation_lifecycle env gui
  unfold processGate at h ⊢
  by_cases hv : gui.ViewsSetup = true
  · simp [hv]
  · have hv2 : gui.ViewsSetup = false := by simpa using hv
    simp only [hv2, Bool.not_false, if_true, Bool.false_eq_true, if_false] at h ⊢
    rcases hr : onInitialViewsCreation env gui with ⟨g1, _ | err⟩
    · rw [hr] at h1 h2 h3 h4
      simp only at h1 h2 h3 h4 ⊢
      refine ⟨trivial, h2, ?_, ?_⟩
      · rw [← h3]
        simp [processReadyRuns, Gui.log, List.count_append, List.count_singleton]
      · rw [← h4]
        simp [repoReadyRuns, Gui.log, List.count_append, List.count_singleton]
    · rw [hr] at h
      simp at h

theorem onRepoViewReset_lifecycle (env : Env) :
    ∀ (views : List String) (gui : Gui), sameLifecycle (onRepoViewReset env views gui).1 gui
  | [], gui => sameLifecycle_refl _
  | v :: rest, gui => by
    rw [onRepoViewReset]
    have hlog := sameLifecycle_log gui (.SetViewOnTop v) (by simp) (by simp)
    split
    · exact hlog
    · exact sameLifecycle_trans (onRepoViewReset_lifecycle env rest _) hlog

theorem onInitialViewsCreationForRepo_lifecycle (env : Env) (gui : Gui) :
    (onInitialViewsCreationForRepo env gui).1.ViewsSetup = gui.ViewsSetup ∧
    (onInitialViewsCreationForRepo env gui).1.StateViewsSetup = gui.StateViewsSetup ∧
    processReadyRuns (onInitialViewsCreationForRepo env gui).1 = processReadyRuns gui ∧
    repoReadyRuns (onInitialViewsCreationForRepo env gui).1 = repoReadyRuns gui + 1 := by
  have hstart : (gui.log .onInitialViewsCreationForRepo).ViewsSetup = gui.ViewsSetup ∧
      (gui.log .onInitialViewsCreationForRepo).StateViewsSetup = gui.StateViewsSetup ∧
      processReadyRuns (gui.log .onInitialViewsCreationForRepo) = processReadyRuns gui ∧
      repoReadyRuns (gui.log .onInitialViewsCreationForRepo) = repoReadyRuns gui + 1 := by
    simp [processReadyRuns, repoReadyRuns, Gui.log, List.count_append, List.count_singleton]
  have hreset := onRepoViewReset_lifecycle env env.orderedViews
    (gui.log .onInitialViewsCreationForRepo)
  unfold onInitialViewsCreationForRepo
  simp only
  rcases hr : onRepoViewReset env env.orderedViews (gui.log .onInitialViewsCreationForRepo)
    with ⟨g1, _ | err⟩
  · rw [hr] at hreset
    simp only
    have htail : sameLifecycle
        (Gui.log (Gui.log { g1 with g := hidePopups (popupViewNames env.contexts) g1.g }
          .Activate) .loadNewRepo) g1 :=
      sameLifecycle_trans (sameLifecycle_log _ _ (by decide) (by decide))
        (sameLifecycle_trans (sameLifecycle_log _ _ (by decide) (by decide))
          (sameLifecycle_setG _ _))
    have hall := sameLifecycle_trans htail hreset
    exact ⟨hall.1.trans hstart.1, hall.2.1.trans hstart.2.1, hall.2.2.1.trans hstart.2.2.1,
      hall.2.2.2.trans hstart.2.2.2⟩
  · rw [hr] at hreset
    simp only
    exact ⟨hreset.1.trans hstart.1, hreset.2.1.trans hstart.2.1,
      hreset.2.2.1.trans hstart.2.2.1, hreset.2.2.2.trans hstart.2.2.2⟩

theorem repoGate_lifecycle (env : Env) (gui : Gui) (h : (repoGate env gui).2 = none) :
    (repoGate env gui).1.ViewsSetup = gui.ViewsSetup ∧
    (repoGate env gui).1.StateViewsSetup = true ∧
    processReadyRuns (repoGate env gui).1 = processReadyRuns gui ∧
    repoReadyRuns (repoGate env gui).1 =
      repoReadyRuns gui + (if gui.StateViewsSetup then 0 else 1) := by
  obtain ⟨h1, h2, h3, h4⟩ := onInitialViewsCreationForRepo_lifecycle env gui
  unfold repoGate at h ⊢
  by_cases hv : gui.StateViewsSetup = true
  · simp [hv]
  · have hv2 : gui.StateViewsSetup = false := by simpa using hv
    simp only [hv2, Bool.not_false, if_true, Bool.false_eq_true, if_false] at h ⊢
    rcases hr : onInitialViewsCreationForRepo env gui with ⟨g1, _ | err⟩
    · rw [hr] at h1 h2 h3 h4
      simp only at h1 h2 h3 h4 ⊢
      exact ⟨h1, trivial, h3, h4⟩
    · rw [hr] at h
      simp at h

theorem layoutStructural_lifecycle (env : Env) (gui gui1 : Gui)
    (h : layoutStructural env gui = (gui1, .ok)) :
    gui1.ViewsSetup = true ∧ gui1.StateViewsSetup = true ∧
    processReadyRuns gui1 = processReadyRuns gui + (if gui.ViewsSetup then 0 else 1) ∧
    repoReadyRuns gui1 = repoReadyRuns gui + (if gui.StateViewsSetup then 0 else 1) := by
  unfold layoutStructural at h
  have hS := layoutStart_lifecycle env gui
  rcases h0 : layoutStart env gui with ⟨ga, _ | e⟩
  · rw [h0] at h hS
    simp only at h hS
    have hR := readMoreLines_lifecycle env { ga with g := { ga.g with Highlight := true } }
    generalize readMoreLines env { ga with g := { ga.g with Highlight := true } } = gb at h hR
    have hgb : sameLifecycle gb gui := sameLifecycle_trans hR (sameLifecycle_trans ⟨rfl, rfl, rfl, rfl⟩ hS)
    split at h
    · cases h
    · rename_i st hbind
      split at h
      · cases h
      · cases h
      · rename_i g2 hlim
        split at h
        · cases h
        · cases h
        · rename_i g3 htr
          have hU := updateInformation_lifecycle env { gb with g := g3 }
          generalize updateInformation env { gb with g := g3 } = gc at h hU
          have hgc : sameLifecycle gc gui :=
            sameLifecycle_trans hU (sameLifecycle_trans (sameLifecycle_setG _ _) hgb)
          split at h
          · cases h
          · rename_i gd hpg
            have hP := processGate_lifecycle env gc (by rw [hpg])
            rw [hpg] at hP
            simp only at hP
            split at h
            · cases h
            · rename_i ge hrg
              have hG := repoGate_lifecycle env gd (by rw [hrg])
              rw [hrg] at hG
              simp only at hG
              have hZ := resizeReaction_lifecycle env ge
              split at h
              · cases h
              · cases h
              · rename_i gf hrz
                rw [hrz] at hZ
                simp only at hZ
                injection h with h1 _
                subst h1
                have hT : sameLifecycle
                    (Gui.log (Gui.log (rerenderContexts st.contextsToRerender gf)
                      .ResizeCurrentPopupPanels) .renderContextOptionsMap) gf :=
                  sameLifecycle_trans (sameLifecycle_log _ _ (by decide) (by decide))
                    (sameLifecycle_trans (sameLifecycle_log _ _ (by decide) (by decide))
                      (rerenderContexts_lifecycle _ _))
                have hE := sameLifecycle_trans hT hZ
                obtain ⟨e1, e2, e3, e4⟩ := hE
                obtain ⟨c1, c2, c3, c4⟩ := hgc
                refine ⟨?_, ?_, ?_, ?_⟩
                · rw [e1, hG.1, hP.1]
                · rw [e2, hG.2.1]
                · rw [e3, hG.2.2.1, hP.2.2.1, c3, c1]
                · rw [e4, hG.2.2.2, hP.2.2.2, hP.2.1, c4, c2]
  · rw [h0] at h
    cases h

theorem clampView_oy_eq (view : View) (c : Context) (d : Dimensions) :
    (clampView view c d).oy =
      if view.oy > maxOriginY view c d then
        (if view.oy - maxOriginY view c d > view.oy then 0 else maxOriginY view c d)
      else view.oy := by
  unfold clampView
  simp only [View.OriginY]
  split
  · rw [ScrollUp_oy]; split <;> omega
  · rfl

theorem boundView_fields (view : View) (c : Context) (d : Dimensions) :
    (boundView view c d).Frame = view.Frame ∧
    (boundView view c d).CanScrollPastBottom = view.CanScrollPastBottom ∧
    (boundView view c d).oy = (clampView view c d).oy ∧
    (boundView view c d).x0 = d.X0 - frameOffset view ∧
    (boundView view c d).y0 = d.Y0 - frameOffset view ∧
    (boundView view c d).x1 = d.X1 + frameOffset view ∧
    (boundView view c d).y1 = d.Y1 + frameOffset view := by
  obtain ⟨_, _, _, _, _, hF, hP, _, _⟩ := clampView_fields view c d
  exact ⟨hF, hP, rfl, rfl, rfl, rfl, rfl⟩

/-- Binding a view again with the same rectangle and content height marks its
context for re-render exactly when the view is frameless and the context has
a re-render flag: lines 91 and 98 compare the measured size of the bounds
applied by lines 107-113, which include the frame offset, with the size of
the rectangle, which does not. -/
theorem mustRerender_rebound (view : View) (c : Context) (d : Dimensions) :
    mustRerender (boundView view c d) c d =
      (!view.Frame &&
        (decide (c.NeedsRerenderOnWidthChange =
            .NEEDS_RERENDER_ON_WIDTH_CHANGE_WHEN_WIDTH_CHANGES) ||
          c.NeedsRerenderOnHeightChange)) := by
  obtain ⟨hF, hP, hoy, hx0, hy0, hx1, hy1⟩ := boundView_fields view c d
  have hfo : frameOffset (boundView view c d) = frameOffset view := by
    simp [frameOffset, hF]
  have hM : maxOriginY (boundView view c d) c d = maxOriginY view c d := by
    simp [maxOriginY, viewportHeight, hfo, hP]
  have h1 := clampView_oy_eq view c d
  have h2 := clampView_oy_eq (boundView view c d) c d
  rw [hM, hoy] at h2
  have hstay : (clampView (boundView view c d) c d).oy = (boundView view c d).oy := by
    rw [h2, hoy, h1]
    split_ifs <;> omega
  unfold mustRerender
  simp only [View.OriginY, View.Width, View.Height, hstay, hx0, hx1, hy0, hy1, ne_eq,
    not_true_eq_false, decide_False, Bool.false_and, Bool.and_false, Bool.false_or]
  unfold frameOffset
  cases view.Frame <;> cases c.NeedsRerenderOnHeightChange <;>
    by_cases hw : c.NeedsRerenderOnWidthChange =
      .NEEDS_RERENDER_ON_WIDTH_CHANGE_WHEN_WIDTH_CHANGES <;>
    simp [hw] <;> omega

theorem setViewFromDimensions_boundView (vd : String → Option Dimensions) (width height : Int)
    (fault : String → Option Error) (c : Context) (st : BindState) (view : View) (d : Dimensions)
    (hview : st.g.View c.GetViewName = .ok view) (hdim : vd c.GetWindowName = some d)
    (hok : (setViewFromDimensions vd width height fault c st).2 = none) :
    (setViewFromDimensions vd width height fault c st).1.g.View c.GetViewName =
      .ok (boundView view c d) := by
  rw [setViewFromDimensions_view vd width height fault c st view d hview hdim, if_pos hok]
  rfl

/-- Two binder calls in a row on the same context with the same rectangle and
content height: the second call marks the context for re-render exactly when
its view is frameless and the context has a re-render flag. -/
theorem setViewFromDimensions_again (vd : String → Option Dimensions) (width height : Int)
    (fault : String → Option Error) (c : Context) (st : BindState) (view : View) (d : Dimensions)
    (marked : List Context)
    (hview : st.g.View c.GetViewName = .ok view) (hdim : vd c.GetWindowName = some d)
    (hok : (setViewFromDimensions vd width height fault c st).2 = none) :
    (setViewFromDimensions vd width height fault c
      { g := (setViewFromDimensions vd width height fault c st).1.g,
        contextsToRerender := marked }).1.contextsToRerender =
      if (!view.Frame &&
        (decide (c.NeedsRerenderOnWidthChange =
            .NEEDS_RERENDER_ON_WIDTH_CHANGE_WHEN_WIDTH_CHANGES) ||
          c.NeedsRerenderOnHeightChange)) = true
      then marked ++ [c] else marked := by
  have hb := setViewFromDimensions_boundView vd width height fault c st view d hview hdim hok
  rw [setViewFromDimensions_some vd width height fault c
    { g := (setViewFromDimensions vd width height fault c st).1.g, contextsToRerender := marked }
    (boundView view c d) d hb hdim]
  simp only
  rw [mustRerender_rebound]

/-- No way of measuring a width from the applied bounds alone agrees with
`X1 - X0 + 1` both for framed views (bounds `X0 .. X1`) and for frameless
views (bounds `X0 - 1 .. X1 + 1`). -/
theorem no_measure_fits_both_frames :
    ¬ ∃ measure : Int → Int → Int, ∀ (view : View) (d : Dimensions),
      measure (d.X0 - frameOffset view) (d.X1 + frameOffset view) = d.X1 - d.X0 + 1 := by
  rintro ⟨measure, h⟩
  have h1 := h { filesView with Frame := true } ⟨0, 0, 9, 0⟩
  have h2 := h { filesView with Frame := false } ⟨1, 0, 8, 0⟩
  simp [frameOffset, filesView] at h1 h2
  omega

/-! ## Lemmas on the drain of the deferred actions -/

theorem errAt_zero {σ : Type} (run : DeferredActions σ) (f : Nat) (actions : List Nat) (s : σ) :
    errAt run (f :: actions) s 0 = (run f s).2.2 := by
  simp [errAt, runActions]

theorem errAt_succ {σ : Type} (run : DeferredActions σ) (f : Nat) (actions : List Nat) (s : σ)
    (i : Nat) : errAt run (f :: actions) s (i + 1) = errAt run actions (run f s).1 i := by
  simp [errAt, runActions]

theorem drain_cons {σ : Type} (run : DeferredActions σ) (fuel : Nat) (f : Nat)
    (queue : List Nat) (s : σ) :
    drainAfterLayoutFuncs run (fuel + 1) (f :: queue) s =
      match run f s with
      | (s1, sent, some err) =>
        { state := s1, executed := [f], remaining := queue ++ sent, err := some err,
          finished := true }
      | (s1, sent, none) =>
        { drainAfterLayoutFuncs run fuel (queue ++ sent) s1 with
          executed := f :: (drainAfterLayoutFuncs run fuel (queue ++ sent) s1).executed } := by
  rw [drainAfterLayoutFuncs]

/-- What the drain has done after `fuel` iterations at most. -/
theorem drain_spec {σ : Type} (run : DeferredActions σ) :
    ∀ (fuel : Nat) (queue : List Nat) (s : σ),
      (drainAfterLayoutFuncs run fuel queue s).executed ++
          (drainAfterLayoutFuncs run fuel queue s).remaining =
        queue ++ sentBy run (drainAfterLayoutFuncs run fuel queue s).executed s ∧
      (drainAfterLayoutFuncs run fuel queue s).state =
        runActions run (drainAfterLayoutFuncs run fuel queue s).executed s ∧
      (∀ i, i + 1 < (drainAfterLayoutFuncs run fuel queue s).executed.length →
        errAt run (drainAfterLayoutFuncs run fuel queue s).executed s i = none) ∧
      ((drainAfterLayoutFuncs run fuel queue s).finished = true →
        (drainAfterLayoutFuncs run fuel queue s).err = none →
        (drainAfterLayoutFuncs run fuel queue s).remaining = [] ∧
        ∀ i, i < (drainAfterLayoutFuncs run fuel queue s).executed.length →
          errAt run (drainAfterLayoutFuncs run fuel queue s).executed s i = none) ∧
      (∀ e, (drainAfterLayoutFuncs run fuel queue s).err = some e →
        (drainAfterLayoutFuncs run fuel queue s).finished = true ∧
        (drainAfterLayoutFuncs run fuel queue s).executed ≠ [] ∧
        errAt run (drainAfterLayoutFuncs run fuel queue s).executed s
          ((drainAfterLayoutFuncs run fuel queue s).executed.length - 1) = some e) ∧
      ((drainAfterLayoutFuncs run fuel queue s).finished = false →
        (drainAfterLayoutFuncs run fuel queue s).executed.length = fuel ∧
        (drainAfterLayoutFuncs run fuel queue s).err = none)
  | 0, queue, s => by
    simp [drainAfterLayoutFuncs, sentBy, runActions]
  | fuel + 1, [], s => by
    simp [drainAfterLayoutFuncs, sentBy, runActions]
  | fuel + 1, f :: queue, s => by
    rw [drain_cons]
    rcases hf : run f s with ⟨s1, sent, _ | err⟩
    · obtain ⟨ih1, ih2, ih3, ih4, ih5, ih6⟩ := drain_spec run fuel (queue ++ sent) s1
      simp only
      refine ⟨?_, ?_, ?_, ?_, ?_, ?_⟩
      · rw [List.cons_append, ih1]
        simp [sentBy, hf, List.append_assoc]
      · rw [ih2]; simp [runActions, hf]
      · intro i hi
        cases i with
        | zero => rw [errAt_zero, hf]
        | succ k =>
          rw [errAt_succ, hf]
          exact ih3 k (by simpa using hi)
      · intro hfin herr
        refine ⟨(ih4 hfin herr).1, ?_⟩
        intro i hi
        cases i with
        | zero => rw [errAt_zero, hf]
        | succ k =>
          rw [errAt_succ, hf]
          exact (ih4 hfin herr).2 k (by simpa using hi)
      · intro e he
        obtain ⟨h1, h2, h3⟩ := ih5 e he
        refine ⟨h1, by simp, ?_⟩
        have hlen : 0 < (drainAfterLayoutFuncs run fuel (queue ++ sent) s1).executed.length :=
          List.length_pos.2 h2
        have : (f :: (drainAfterLayoutFuncs run fuel (queue ++ sent) s1).executed).length - 1 =
            ((drainAfterLayoutFuncs run fuel (queue ++ sent) s1).executed.length - 1) + 1 := by
          simp only [List.length_cons]; omega
        rw [this, errAt_succ, hf]
        exact h3
      · intro hfin
        obtain ⟨h1, h2⟩ := ih6 hfin
        exact ⟨by simp [h1], h2⟩
    · simp only
      refine ⟨?_, ?_, ?_, ?_, ?_, ?_⟩
      · simp [sentBy, hf]
      · simp [runActions, hf]
      · intro i hi; simp at hi
      · intro _ h; cases h
      · intro e he
        injection he with he
        subst he
        refine ⟨trivial, by simp, ?_⟩
        simp only [List.length_singleton, Nat.sub_self]
        rw [errAt_zero, hf]
      · intro h; cases h

/-- Once the drain has ended, following it for more iterations changes nothing. -/
theorem drain_more_fuel {σ : Type} (run : DeferredActions σ) :
    ∀ (fuel : Nat) (queue : List Nat) (s : σ) (extra : Nat),
      (drainAfterLayoutFuncs run fuel queue s).finished = true →
      drainAfterLayoutFuncs run (fuel + extra) queue s = drainAfterLayoutFuncs run fuel queue s
  | 0, queue, s, extra => by
    intro h
    simp [drainAfterLayoutFuncs] at h
  | fuel + 1, [], s, extra => by
    intro _
    rw [Nat.add_right_comm]
    simp [drainAfterLayoutFuncs]
  | fuel + 1, f :: queue, s, extra => by
    intro h
    rw [Nat.add_right_comm, drain_cons, drain_cons]
    rw [drain_cons] at h
    rcases hf : run f s with ⟨s1, sent, _ | err⟩
    · rw [hf] at h
      simp only at h ⊢
      rw [drain_more_fuel run fuel (queue ++ sent) s1 extra h]
    · rfl

/-- When no action in the channel sends an action, the drain ends within as
many iterations as there are actions in the channel, plus the last poll. -/
theorem drain_ends {σ : Type} (run : DeferredActions σ) :
    ∀ (fuel : Nat) (queue : List Nat) (s : σ),
      (∀ a ∈ queue, ∀ t, (run a t).2.1 = []) → queue.length < fuel →
      (drainAfterLayoutFuncs run fuel queue s).finished = true ∧
      sentBy run (drainAfterLayoutFuncs run fuel queue s).executed s = []
  | 0, queue, s => by
    intro _ h; omega
  | fuel + 1, [], s => by
    intro _ _
    simp [drainAfterLayoutFuncs, sentBy]
  | fuel + 1, f :: queue, s => by
    intro hsend hlen
    rw [drain_cons]
    have hf0 := hsend f (List.mem_cons_self _ _) s
    rcases hf : run f s with ⟨s1, sent, _ | err⟩
    · rw [hf] at hf0
      simp only at hf0
      subst hf0
      simp only [List.append_nil]
      obtain ⟨h1, h2⟩ := drain_ends run fuel queue s1
        (fun a ha => hsend a (List.mem_cons_of_mem _ ha)) (by simpa using hlen)
      refine ⟨h1, ?_⟩
      simp [sentBy, hf, h2]
    · rw [hf] at hf0
      simp only at hf0
      simp [sentBy, hf, hf0]

/-- A relation between states that every action that can run keeps is kept by
the drain. -/
theorem drain_keeps {σ : Type} (run : DeferredActions σ) (R : σ → σ → Prop)
    (P : Nat → Prop) (hrefl : ∀ s, R s s) (htrans : ∀ a b c, R a b → R b c → R a c)
    (hP : ∀ a, P a → ∀ s, R (run a s).1 s ∧ ∀ b ∈ (run a s).2.1, P b) :
    ∀ (fuel : Nat) (queue : List Nat) (s : σ), (∀ a ∈ queue, P a) →
      R (drainAfterLayoutFuncs run fuel queue s).state s
  | 0, queue, s => fun _ => hrefl s
  | fuel + 1, [], s => fun _ => hrefl s
  | fuel + 1, f :: queue, s => by
    intro hq
    rw [drain_cons]
    obtain ⟨hR, hsent⟩ := hP f (hq f (List.mem_cons_self _ _)) s
    rcases hf : run f s with ⟨s1, sent, _ | err⟩
    · rw [hf] at hR hsent
      simp only at hR hsent ⊢
      refine htrans _ _ _ (drain_keeps run R P hrefl htrans hP fuel (queue ++ sent) s1 ?_) hR
      intro a ha
      rcases List.mem_append.1 ha with h | h
      · exact hq a (List.mem_cons_of_mem _ h)
      · exact hsent a h
    · rw [hf] at hR
      exact hR

/-- The drain keeps what every action reachable from the channel keeps. -/
theorem drain_keeps_reachable {σ : Type} (run : DeferredActions σ) (R : σ → σ → Prop)
    (hrefl : ∀ s, R s s) (htrans : ∀ a b c, R a b → R b c → R a c)
    (fuel : Nat) (queue : List Nat) (s : σ)
    (h : ∀ a, Reachable run queue a → ∀ t, R (run a t).1 t) :
    R (drainAfterLayoutFuncs run fuel queue s).state s :=
  drain_keeps run R (Reachable run queue) hrefl htrans
    (fun a ha t => ⟨h a ha t, fun b hb => Reachable.sent a b t ha hb⟩)
    fuel queue s (fun a ha => Reachable.queued a ha)

/-- The pass ends as the drain ends once the part before the drain ended normally. -/
theorem layout_of_structural_ok (env : Env) (run : DeferredActions Gui) (fuel : Nat)
    (queue : List Nat) (gui gui1 : Gui) (h : layoutStructural env gui = (gui1, .ok)) :
    layout env run fuel queue gui =
      ((drainAfterLayoutFuncs run fuel queue gui1).state,
        (drainAfterLayoutFuncs run fuel queue gui1).remaining,
        if (drainAfterLayoutFuncs run fuel queue gui1).finished = true then
          match (drainAfterLayoutFuncs run fuel queue gui1).err with
          | some err => .ended (.error err)
          | none => .ended .ok
        else .running) := by
  unfold layout
  rw [h]
  simp only
  cases (drainAfterLayoutFuncs run fuel queue gui1).finished <;>
    cases (drainAfterLayoutFuncs run fuel queue gui1).err <;> rfl

/-- One pass that ends normally leaves both gates open and runs each one-shot
sequence once if its gate was closed at the start of the pass, and not at all
otherwise. -/
theorem layout_lifecycle (env : Env) (run : DeferredActions Gui) (fuel : Nat)
    (queue rest : List Nat) (gui gui1 : Gui) (hq : preservesLifecycle run queue)
    (h : layout env run fuel queue gui = (gui1, rest, .ended .ok)) :
    gui1.ViewsSetup = true ∧ gui1.StateViewsSetup = true ∧
    processReadyRuns gui1 = processReadyRuns gui + (if gui.ViewsSetup then 0 else 1) ∧
    repoReadyRuns gui1 = repoReadyRuns gui + (if gui.StateViewsSetup then 0 else 1) := by
  rcases hs : layoutStructural env gui with ⟨g1, _ | e | _⟩
  · have hl := layoutStructural_lifecycle env gui g1 hs
    rw [layout_of_structural_ok env run fuel queue gui g1 hs] at h
    injection h with h1 _
    have hd := drain_keeps_reachable run sameLifecycle sameLifecycle_refl
      (fun _ _ _ h1 h2 => sameLifecycle_trans h1 h2) fuel queue g1 hq
    rw [h1] at hd
    obtain ⟨d1, d2, d3, d4⟩ := hd
    exact ⟨d1.trans hl.1, d2.trans hl.2.1, d3.trans hl.2.2.1, d4.trans hl.2.2.2⟩
  · unfold layout at h
    rw [hs] at h
    cases h
  · unfold layout at h
    rw [hs] at h
    cases h

theorem layoutPasses_cons (p : Pass) (rest : List Pass) (gui : Gui) :
    layoutPasses (p :: rest) gui =
      match layout p.env p.run p.fuel p.queue gui with
      | (gui, _, .ended .ok) => layoutPasses rest gui
      | (gui, _, r) => (gui, r) := by
  rw [layoutPasses]

/-- A sequence of passes that ends normally: its first pass ended normally and
the other passes ran from the state it left. -/
theorem layoutPasses_cons_ok (p : Pass) (rest : List Pass) (gui gui1 : Gui)
    (h : layoutPasses (p :: rest) gui = (gui1, .ended .ok)) :
    (layout p.env p.run p.fuel p.queue gui).2.2 = .ended .ok ∧
    layoutPasses rest (layout p.env p.run p.fuel p.queue gui).1 = (gui1, .ended .ok) := by
  rw [layoutPasses_cons] at h
  rcases hl : layout p.env p.run p.fuel p.queue gui with ⟨g1, q1, (_ | e | _) | _⟩
  · rw [hl] at h
    exact ⟨rfl, h⟩
  · rw [hl] at h
    cases h
  · rw [hl] at h
    cases h
  · rw [hl] at h
    cases h

/-- Passes that all end normally after the gates are open run no one-shot sequence. -/
theorem layoutPasses_open :
    ∀ (passes : List Pass) (gui gui1 : Gui),
      (∀ p ∈ passes, preservesLifecycle p.run p.queue) →
      gui.ViewsSetup = true → gui.StateViewsSetup = true →
      layoutPasses passes gui = (gui1, .ended .ok) →
      gui1.ViewsSetup = true ∧ gui1.StateViewsSetup = true ∧
      processReadyRuns gui1 = processReadyRuns gui ∧ repoReadyRuns gui1 = repoReadyRuns gui
  | [], gui, gui1 => by
    intro _ hA hB h
    simp only [layoutPasses] at h
    injection h with h1 _
    subst h1
    exact ⟨hA, hB, rfl, rfl⟩
  | p :: rest, gui, gui1 => by
    intro hq hA hB h
    obtain ⟨hok, hrest⟩ := layoutPasses_cons_ok p rest gui gui1 h
    obtain ⟨a1, a2, a3, a4⟩ := layout_lifecycle p.env p.run p.fuel p.queue
      (layout p.env p.run p.fuel p.queue gui).2.1 gui (layout p.env p.run p.fuel p.queue gui).1
      (hq p (List.mem_cons_self _ _)) (Prod.ext rfl (Prod.ext rfl hok))
    obtain ⟨b1, b2, b3, b4⟩ := layoutPasses_open rest _ gui1
      (fun p hp => hq p (List.mem_cons_of_mem _ hp)) a1 a2 hrest
    refine ⟨b1, b2, ?_, ?_⟩
    · rw [b3, a3, hA]; simp
    · rw [b4, a4, hB]; simp

/-- At least one pass, all ending normally: both gates end open and each
one-shot sequence has run once if its gate was closed at the start, in the
first pass. -/
theorem layoutPasses_lifecycle (passes : List Pass) (gui gui1 : Gui)
    (hq : ∀ p ∈ passes, preservesLifecycle p.run p.queue)
    (hn : passes ≠ []) (h : layoutPasses passes gui = (gui1, .ended .ok)) :
    gui1.ViewsSetup = true ∧ gui1.StateViewsSetup = true ∧
    processReadyRuns gui1 = processReadyRuns gui + (if gui.ViewsSetup then 0 else 1) ∧
    repoReadyRuns gui1 = repoReadyRuns gui + (if gui.StateViewsSetup then 0 else 1) ∧
    ∀ p rest, passes = p :: rest →
      processReadyRuns (layout p.env p.run p.fuel p.queue gui).1 = processReadyRuns gui1 ∧
      repoReadyRuns (layout p.env p.run p.fuel p.queue gui).1 = repoReadyRuns gui1 := by
  cases passes with
  | nil => exact absurd rfl hn
  | cons p rest =>
    obtain ⟨hok, hrest⟩ := layoutPasses_cons_ok p rest gui gui1 h
    obtain ⟨a1, a2, a3, a4⟩ := layout_lifecycle p.env p.run p.fuel p.queue
      (layout p.env p.run p.fuel p.queue gui).2.1 gui (layout p.env p.run p.fuel p.queue gui).1
      (hq p (List.mem_cons_self _ _)) (Prod.ext rfl (Prod.ext rfl hok))
    obtain ⟨b1, b2, b3, b4⟩ := layoutPasses_open rest _ gui1
      (fun p hp => hq p (List.mem_cons_of_mem _ hp)) a1 a2 hrest
    refine ⟨b1, b2, by rw [b3, a3], by rw [b4, a4], ?_⟩
    intro p2 rest2 heq
    injection heq with h1 h2
    subst h1
    exact ⟨b3.symm, b4.symm⟩

/-! ## Lemmas on the surface during the rest of the pass -/

/-- The transient-visibility loop ends normally only if the views of all its
contexts exist. -/
theorem transientVisibility_ok_exists (occ : String → String) :
    ∀ (cs : List Context) (g g1 : Gocui), transientVisibility occ cs g = (g1, .ok) →
      ∀ c ∈ cs, ∃ v, g.View c.GetViewName = .ok v
  | [], g, g1 => by
    intro _ c hc; cases hc
  | c0 :: rest, g, g1 => by
    intro h c hc
    rw [transientVisibility_cons] at h
    cases hv : g.View c0.GetViewName with
    | error e =>
      rw [hv] at h
      simp only at h
      split at h <;> cases h
    | ok v0 =>
      rw [hv] at h
      simp only at h
      rcases List.mem_cons.1 hc with heq | hin
      · subst heq; exact ⟨v0, hv⟩
      · obtain ⟨v, hv1⟩ := transientVisibility_ok_exists occ rest _ g1 h c hin
        have hnames := modifyView_names g c0.GetViewName
          (fun view => { view with Visible := decide (occ c0.GetWindowName = c0.GetViewName) })
          (fun _ => rfl)
        have hmem := (View_ok_iff_mem _ c.GetViewName).1 ⟨v, hv1⟩
        rw [hnames] at hmem
        exact (View_ok_iff_mem g _).2 hmem

theorem hidePopups_cons (viewName : String) (rest : List String) (g : Gocui) :
    hidePopups (viewName :: rest) g =
      match g.View viewName with
      | .ok _ =>
        hidePopups rest (g.modifyView viewName (fun view => { view with Visible := false }))
      | .error _ => hidePopups rest g := by
  rw [hidePopups]

/-- Hiding the popups hides the views named in the list and leaves the others alone. -/
theorem hidePopups_View :
    ∀ (names : List String) (g : Gocui) (n : String),
      (hidePopups names g).View n =
        if n ∈ names then (g.View n).map (fun view => { view with Visible := false })
        else g.View n
  | [], g, n => by simp [hidePopups]
  | name0 :: rest, g, n => by
    rw [hidePopups_cons]
    cases hv : g.View name0 with
    | error e =>
      simp only
      rw [hidePopups_View rest g n]
      by_cases hn : n = name0
      · subst hn
        simp [hv, Except.map]
      · simp [hn]
    | ok v0 =>
      simp only
      have hmod := View_modifyView g name0 n
        (fun view => { view with Visible := false }) (fun _ => rfl)
      rw [hidePopups_View rest _ n, hmod]
      by_cases hn : n = name0
      · subst hn
        by_cases hr : n ∈ rest
        · simp [hr, hv, Except.map]
        · simp [hr, hv, Except.map]
      · by_cases hr : n ∈ rest
        · simp [hr, hn]
        · simp [hr, hn]

theorem onRepoViewReset_g (env : Env) :
    ∀ (views : List String) (gui : Gui), (onRepoViewReset env views gui).1.g = gui.g
  | [], gui => rfl
  | v :: rest, gui => by
    rw [onRepoViewReset]
    split
    · rfl
    · rw [onRepoViewReset_g env rest _]; rfl

theorem processGate_g (env : Env) (gui : Gui) : (processGate env gui).1.g = gui.g := by
  unfold processGate onInitialViewsCreation
  rcases hv : gui.ViewsSetup with _ | _ <;>
    rcases hd : env.DisableStartupPopups with _ | _ <;>
    rcases hs : gui.showRecentRepos with _ | _ <;>
    rcases hc : env.CreateRecentReposMenu with _ | e <;>
    by_cases h : env.storedPopupVersion < env.StartupPopupVersion <;>
    simp [h, hv, hd, hs, hc, Gui.log]

theorem repoGate_g (env : Env) (gui : Gui) (h : (repoGate env gui).2 = none) :
    (repoGate env gui).1.g =
      if gui.StateViewsSetup = true then gui.g
      else hidePopups (popupViewNames env.contexts) gui.g := by
  unfold repoGate at h ⊢
  by_cases hv : gui.StateViewsSetup = true
  · simp [hv]
  · have hv2 : gui.StateViewsSetup = false := by simpa using hv
    simp only [hv2, Bool.not_false, if_true, Bool.false_eq_true, if_false] at h ⊢
    unfold onInitialViewsCreationForRepo at h ⊢
    simp only at h ⊢
    have hg := onRepoViewReset_g env env.orderedViews (gui.log .onInitialViewsCreationForRepo)
    rcases hr : onRepoViewReset env env.orderedViews (gui.log .onInitialViewsCreationForRepo)
      with ⟨g1, _ | err⟩
    · rw [hr] at hg h
      simp only at hg h ⊢
      cases hl : env.loadNewRepo with
      | none =>
        simp only [Gui.log]
        rw [hg]
        rfl
      | some e =>
        rw [hl] at h
        simp at h
    · rw [hr] at h
      simp at h

theorem resizeReaction_g (env : Env) (gui : Gui) : (resizeReaction env gui).1.g = gui.g := by
  unfold resizeReaction
  split
  · rfl
  · simp only
    split
    · split <;> rfl
    · rfl

theorem rerenderContexts_g :
    ∀ (cs : List Context) (gui : Gui), (rerenderContexts cs gui).g = gui.g
  | [], gui => rfl
  | c :: rest, gui => by
    rw [rerenderContexts, rerenderContexts_g rest _]
    rfl

theorem updateInformation_g (env : Env) (gui : Gui) : (updateInformation env gui).g = gui.g := by
  unfold updateInformation
  split <;> rfl

/-- The surface after the part of a pass before the drain: what the
transient-visibility loop left, with the popup views hidden if the
repository-level gate was closed when the pass started. -/
theorem layoutStructural_surface (env : Env) (gui gui1 : Gui)
    (h : layoutStructural env gui = (gui1, .ok)) :
    ∃ g2 g3, transientVisibility env.GetViewNameForWindow (transientContexts env.contexts) g2 =
        (g3, .ok) ∧
      gui1.g = if gui.StateViewsSetup = true then g3
        else hidePopups (popupViewNames env.contexts) g3 := by
  unfold layoutStructural at h
  have hS := layoutStart_lifecycle env gui
  rcases h0 : layoutStart env gui with ⟨ga, _ | e⟩
  · rw [h0] at h hS
    simp only at h hS
    have hR := readMoreLines_lifecycle env { ga with g := { ga.g with Highlight := true } }
    generalize readMoreLines env { ga with g := { ga.g with Highlight := true } } = gb at h hR
    have hgb : sameLifecycle gb gui :=
      sameLifecycle_trans hR (sameLifecycle_trans ⟨rfl, rfl, rfl, rfl⟩ hS)
    split at h
    · cases h
    · rename_i st hbind
      split at h
      · cases h
      · cases h
      · rename_i g2 hlim
        split at h
        · cases h
        · cases h
        · rename_i g3 htr
          refine ⟨g2, g3, htr, ?_⟩
          have hU := updateInformation_lifecycle env { gb with g := g3 }
          have hUg := updateInformation_g env { gb with g := g3 }
          generalize updateInformation env { gb with g := g3 } = gc at h hU hUg
          have hgc : sameLifecycle gc gui :=
            sameLifecycle_trans hU (sameLifecycle_trans (sameLifecycle_setG _ _) hgb)
          split at h
          · cases h
          · rename_i gd hpg
            have hP := processGate_lifecycle env gc (by rw [hpg])
            have hPg := processGate_g env gc
            rw [hpg] at hP hPg
            simp only at hP hPg
            split at h
            · cases h
            · rename_i ge hrg
              have hGg := repoGate_g env gd (by rw [hrg])
              rw [hrg] at hGg
              simp only at hGg
              have hZ := resizeReaction_g env ge
              split at h
              · cases h
              · cases h
              · rename_i gf hrz
                rw [hrz] at hZ
                simp only at hZ
                injection h with h1 _
                subst h1
                have hT : (Gui.log (Gui.log (rerenderContexts st.contextsToRerender gf)
                    .ResizeCurrentPopupPanels) .renderContextOptionsMap).g = gf.g := by
                  simp only [Gui.log]
                  exact rerenderContexts_g _ _
                rw [hT, hZ, hGg, hPg, hUg, hP.2.1, hgc.2.1]
  · rw [h0] at h
    cases h

/-! ## Lemmas on the scenes -/

theorem guiActions_g (a : Nat) (gui : Gui) : (guiActions a gui).1.g = gui.g := by
  unfold guiActions
  split <;> rfl

theorem guiActions_lifecycle (a : Nat) (gui : Gui) : sameLifecycle (guiActions a gui).1 gui := by
  unfold guiActions
  split
  · exact sameLifecycle_log gui _ (by decide) (by decide)
  · exact sameLifecycle_log gui _ (by decide) (by decide)
  · exact sameLifecycle_log gui _ (by decide) (by decide)
  · exact sameLifecycle_refl _

/-- Two initial segments of one list agree where they overlap. -/
theorem take_of_append_eq {α : Type} :
    ∀ (a b c d : List α), a ++ b = c ++ d → a.take c.length = c.take a.length
  | [], b, c, d => by intro _; simp
  | x :: a, b, [], d => by intro _; simp
  | x :: a, b, y :: c, d => by
    intro h
    simp only [List.cons_append, List.cons.injEq] at h
    simp only [List.length_cons, List.take_succ_cons, List.cons.injEq]
    exact ⟨h.1, take_of_append_eq a b c d h.2⟩

/-- The action that sends itself keeps the drain running. -/
theorem drain_recordActions_six :
    ∀ (fuel : Nat) (s : List String),
      (drainAfterLayoutFuncs recordActions fuel [6] s).finished = false ∧
      (drainAfterLayoutFuncs recordActions fuel [6] s).remaining = [6] ∧
      (drainAfterLayoutFuncs recordActions fuel [6] s).err = none
  | 0, s => by simp [drainAfterLayoutFuncs]
  | fuel + 1, s => by
    rw [drain_cons]
    have h : recordActions 6 s = (s, [6], none) := rfl
    rw [h]
    simp only [List.nil_append]
    exact drain_recordActions_six fuel s

/-! ## Claims -/

/-- C2 (clamp correctness). For a context whose view exists, whose window has a
rectangle and whose view does not allow scrolling past the bottom, with
content height `H`, viewport height `Vh` (the rows strictly inside the applied
bounds) and scroll origin `o ≥ 0`, the origin after binding is
`min o (max 0 (H - Vh))`: an origin above the maximum is scrolled up to it, an
origin at or below it is unchanged, and the origin never ends above it. -/
theorem clamp_correct (vd : String → Option Dimensions) (width height : Int)
    (fault : String → Option Error) (c : Context) (st : BindState) (view : View) (d : Dimensions)
    (hview : st.g.View c.GetViewName = .ok view) (hdim : vd c.GetWindowName = some d)
    (hpast : view.CanScrollPastBottom = false) (ho : 0 ≤ view.OriginY) :
    ∃ w, (setViewFromDimensions vd width height fault c st).1.g.View c.GetViewName = .ok w ∧
      w.OriginY = min view.OriginY (max 0 (c.TotalContentHeight - viewportHeight view d)) ∧
      (view.OriginY > max 0 (c.TotalContentHeight - viewportHeight view d) →
        w.OriginY = max 0 (c.TotalContentHeight - viewportHeight view d)) ∧
      (view.OriginY ≤ max 0 (c.TotalContentHeight - viewportHeight view d) →
        w.OriginY = view.OriginY) ∧
      w.OriginY ≤ max 0 (c.TotalContentHeight - viewportHeight view d) ∧
      ((setViewFromDimensions vd width height fault c st).2 = none →
        w.y1 - w.y0 - 1 = viewportHeight view d) := by
  refine ⟨_, setViewFromDimensions_view vd width height fault c st view d hview hdim, ?_⟩
  have hM : maxOriginY view c d = c.TotalContentHeight - viewportHeight view d := by
    simp [maxOriginY, hpast]
  have hoy := clampView_oy view c d ho
  rw [hM] at hoy
  have hsame : ∀ (b : Prop) [Decidable b] (p q r s : Int),
      (View.OriginY { (if b then { clampView view c d with x0 := p, y0 := q, x1 := r, y1 := s }
        else clampView view c d) with Visible := true }) = (clampView view c d).OriginY := by
    intro b _ p q r s
    by_cases hb : b <;> simp [hb, View.OriginY]
  rw [hsame, hoy]
  refine ⟨rfl, ?_, ?_, ?_, ?_⟩
  · intro h; omega
  · intro h; omega
  · omega
  · intro h
    simp only [h, if_true, viewportHeight]
    ring

/-- Witness for C2: content height 100, 20 rows inside the frame, origin 90 gives origin 80. -/
theorem clamp_correct_witness :
    ∃ w, (setViewFromDimensions clampDimensions 80 24 noFault filesContext
        ⟨sceneSurface, []⟩).1.g.View "files" = .ok w ∧
      viewportHeight filesView ⟨0, 2, 40, 23⟩ = 20 ∧ w.OriginY = 80 := by
  obtain ⟨w, h1, h2, _⟩ := clamp_correct clampDimensions 80 24 noFault filesContext
    ⟨sceneSurface, []⟩ filesView ⟨0, 2, 40, 23⟩ rfl rfl rfl (by decide)
  exact ⟨w, h1, by decide, by rw [h2]; decide⟩

/-- C3 (frame offset correctness). For a context whose view exists, whose window
resolves to the rectangle `(X0, Y0, X1, Y1)` and which is bound without error,
the bounds applied to its view are the rectangle itself when the view draws a
frame and `(X0-1, Y0-1, X1+1, Y1+1)` when it is frameless, and the view is
marked visible. -/
theorem frame_offset_correct (vd : String → Option Dimensions) (width height : Int)
    (fault : String → Option Error) (c : Context) (st : BindState) (view : View) (d : Dimensions)
    (hview : st.g.View c.GetViewName = .ok view) (hdim : vd c.GetWindowName = some d)
    (hok : (setViewFromDimensions vd width height fault c st).2 = none) :
    ∃ w, (setViewFromDimensions vd width height fault c st).1.g.View c.GetViewName = .ok w ∧
      w.Visible = true ∧ w.Frame = view.Frame ∧
      (view.Frame = true → (w.x0, w.y0, w.x1, w.y1) = (d.X0, d.Y0, d.X1, d.Y1)) ∧
      (view.Frame = false →
        (w.x0, w.y0, w.x1, w.y1) = (d.X0 - 1, d.Y0 - 1, d.X1 + 1, d.Y1 + 1)) := by
  refine ⟨_, setViewFromDimensions_view vd width height fault c st view d hview hdim, ?_⟩
  rw [if_pos hok]
  refine ⟨rfl, (clampView_fields view c d).2.2.2.2.2.1, ?_, ?_⟩
  · intro hf; simp [frameOffset, hf]
  · intro hf; simp [frameOffset, hf]

/-- Witness for C3: the rectangle [2,2,10,10] gives [1,1,11,11] for the frameless
view and [2,2,10,10] for the framed one. -/
theorem frame_offset_correct_witness :
    (∃ w, (setViewFromDimensions squareDimensions 80 24 noFault optionsContext
        ⟨sceneSurface, []⟩).1.g.View "options" = .ok w ∧
      w.Visible = true ∧ (w.x0, w.y0, w.x1, w.y1) = (1, 1, 11, 11)) ∧
    (∃ w, (setViewFromDimensions squareDimensions 80 24 noFault filesContext
        ⟨sceneSurface, []⟩).1.g.View "files" = .ok w ∧
      w.Visible = true ∧ (w.x0, w.y0, w.x1, w.y1) = (2, 2, 10, 10)) := by
  constructor
  · obtain ⟨w, h1, h2, _, _, h4⟩ := frame_offset_correct squareDimensions 80 24 noFault
      optionsContext ⟨sceneSurface, []⟩ optionsView ⟨2, 2, 10, 10⟩ rfl rfl rfl
    exact ⟨w, h1, h2, h4 rfl⟩
  · obtain ⟨w, h1, h2, _, h3, _⟩ := frame_offset_correct squareDimensions 80 24 noFault
      filesContext ⟨sceneSurface, []⟩ filesView ⟨2, 2, 10, 10⟩ rfl rfl rfl
    exact ⟨w, h1, h2, h3 rfl⟩

/-- C8 (unknown-view tolerance in binding). A controlled-bounds context whose
view has not been created is skipped by the binding loop: the pass gives the
same result as without that context, so the remaining contexts are bound and
the pass is not aborted by it, and the context does not enter the re-render
list. Any error other than unknown view returned while binding a context
ends the loop at that context and is returned. -/
theorem unknown_view_tolerance (vd : String → Option Dimensions) (width height : Int)
    (fault : String → Option Error) (pre rest : List Context) (c : Context) (st : BindState) :
    (st.g.View c.GetViewName = .error .ErrUnknownView →
      bindContexts vd width height fault (pre ++ c :: rest) st =
        bindContexts vd width height fault (pre ++ rest) st ∧
      (c ∉ st.contextsToRerender →
        c ∉ (bindContexts vd width height fault (pre ++ c :: rest) st).1.contextsToRerender)) ∧
    (∀ st0 st1 err, bindContexts vd width height fault pre st = (st0, none) →
      c.HasControlledBounds = true →
      setViewFromDimensions vd width height fault c st0 = (st1, some err) →
      err ≠ .ErrUnknownView →
      bindContexts vd width height fault (pre ++ c :: rest) st = (st1, some err)) := by
  constructor
  · intro hview
    constructor
    · rw [bindContexts_append, bindContexts_append vd width height fault pre rest]
      have hn := bindContexts_names vd width height fault pre st
      rcases hr : bindContexts vd width height fault pre st with ⟨st1, _ | err⟩
      · simp only
        rw [hr] at hn
        apply bindContexts_cons_unknown
        rw [View_error_iff] at hview ⊢
        exact ⟨rfl, by rw [hn]; exact hview.2⟩
      · rfl
    · intro hnot hmem
      rcases bindContexts_rerender_mem vd width height fault _ st c hmem with h | ⟨_, _, v, hv⟩
      · exact hnot h
      · rw [hview] at hv; cases hv
  · intro st0 st1 err hpre hc hset hne
    rw [bindContexts_append, hpre]
    simp only
    rw [bindContexts_cons, hset]
    have he : err.isUnknownView = false := by
      cases err with
      | ErrUnknownView => exact absurd rfl hne
      | other m => rfl
    simp [hc, he]

/-- Witness for C8: the context on the missing view "ghost" is skipped and the
view "options" is bound after it; a terminal failure on "options" ends the loop. -/
theorem unknown_view_tolerance_witness :
    (bindContexts squareDimensions 80 24 noFault
        ([filesWidthContext] ++ ghostContext :: [optionsWidthContext]) ⟨sceneSurface, []⟩ =
      bindContexts squareDimensions 80 24 noFault
        ([filesWidthContext] ++ [optionsWidthContext]) ⟨sceneSurface, []⟩ ∧
      ghostContext ∉ (bindContexts squareDimensions 80 24 noFault
        ([filesWidthContext] ++ ghostContext :: [optionsWidthContext])
        ⟨sceneSurface, []⟩).1.contextsToRerender) ∧
    (bindContexts squareDimensions 80 24 optionsFault
        ([filesWidthContext] ++ optionsWidthContext :: [ghostContext]) ⟨sceneSurface, []⟩).2 =
      some (.other "terminal failure") := by
  constructor
  · have h := (unknown_view_tolerance squareDimensions 80 24 noFault [filesWidthContext]
      [optionsWidthContext] ghostContext ⟨sceneSurface, []⟩).1 rfl
    exact ⟨h.1, h.2 (by decide)⟩
  · have h := (unknown_view_tolerance squareDimensions 80 24 optionsFault [filesWidthContext]
      [ghostContext] optionsWidthContext ⟨sceneSurface, []⟩).2
      (bindContexts squareDimensions 80 24 optionsFault [filesWidthContext] ⟨sceneSurface, []⟩).1
      (setViewFromDimensions squareDimensions 80 24 optionsFault optionsWidthContext
        (bindContexts squareDimensions 80 24 optionsFault [filesWidthContext]
          ⟨sceneSurface, []⟩).1).1
      (.other "terminal failure") rfl rfl rfl (by decide)
    rw [h]

/-- C1, evaluation at the failing input. The framed view "files" and the
frameless view "options", both with contexts that re-render on a width change,
are bound twice with the same terminal size, rectangles and content heights.
Both passes are error-free and the second pass leaves every view as the first
pass left it, but the re-render list of the second pass holds the context of
the frameless view. -/
theorem binding_second_pass_rerenders_frameless :
    (bindContexts (widthDimensions 80) 120 40 noFault [filesWidthContext, optionsWidthContext]
      ⟨sceneSurface, []⟩).2 = none ∧
    (bindContexts (widthDimensions 80) 120 40 noFault [filesWidthContext, optionsWidthContext]
      ⟨(bindContexts (widthDimensions 80) 120 40 noFault [filesWidthContext, optionsWidthContext]
        ⟨sceneSurface, []⟩).1.g, []⟩) =
      (⟨(bindContexts (widthDimensions 80) 120 40 noFault [filesWidthContext, optionsWidthContext]
        ⟨sceneSurface, []⟩).1.g, [optionsWidthContext]⟩, none) := by
  decide

/-- C4, evaluation at the failing input. After a first pass with window width
80, a second pass with window width 80 calls `HandleRender` once more on the
context of the frameless view "options" (and not on that of the framed view
"files"), and a second pass with window width 82 calls it on the context of
"files" but not on that of "options". All passes end normally. -/
theorem rerender_on_width_change_frameless :
    (layout (sceneEnv 80 [filesWidthContext, optionsWidthContext]) guiActions 1 []
      sceneGui).2.2 = .ended .ok ∧
    handleRenderCalls optionsWidthContext
      (layout (sceneEnv 80 [filesWidthContext, optionsWidthContext]) guiActions 1 []
        sceneGui).1 = 1 ∧
    handleRenderCalls filesWidthContext
      (layout (sceneEnv 80 [filesWidthContext, optionsWidthContext]) guiActions 1 []
        sceneGui).1 = 1 ∧
    (layout (sceneEnv 80 [filesWidthContext, optionsWidthContext]) guiActions 1 []
      (layout (sceneEnv 80 [filesWidthContext, optionsWidthContext]) guiActions 1 []
        sceneGui).1).2.2 = .ended .ok ∧
    handleRenderCalls optionsWidthContext
      (layout (sceneEnv 80 [filesWidthContext, optionsWidthContext]) guiActions 1 []
        (layout (sceneEnv 80 [filesWidthContext, optionsWidthContext]) guiActions 1 []
          sceneGui).1).1 = 2 ∧
    handleRenderCalls filesWidthContext
      (layout (sceneEnv 80 [filesWidthContext, optionsWidthContext]) guiActions 1 []
        (layout (sceneEnv 80 [filesWidthContext, optionsWidthContext]) guiActions 1 []
          sceneGui).1).1 = 1 ∧
    (layout (sceneEnv 82 [filesWidthContext, optionsWidthContext]) guiActions 1 []
      (layout (sceneEnv 80 [filesWidthContext, optionsWidthContext]) guiActions 1 []
        sceneGui).1).2.2 = .ended .ok ∧
    handleRenderCalls optionsWidthContext
      (layout (sceneEnv 82 [filesWidthContext, optionsWidthContext]) guiActions 1 []
        (layout (sceneEnv 80 [filesWidthContext, optionsWidthContext]) guiActions 1 []
          sceneGui).1).1 = 1 ∧
    handleRenderCalls filesWidthContext
      (layout (sceneEnv 82 [filesWidthContext, optionsWidthContext]) guiActions 1 []
        (layout (sceneEnv 80 [filesWidthContext, optionsWidthContext]) guiActions 1 []
          sceneGui).1).1 = 2 := by
  decide

/-- C9, evaluation at the failing input. A transient context whose view has not
been created makes the transient-visibility loop panic, and with it the pass. -/
theorem transient_unknown_view_panics :
    transientVisibility (fun w => w) [ghostTransientContext] sceneGui.g =
      (sceneGui.g, .panic) ∧
    (layout (sceneEnv 80 [filesWidthContext, ghostTransientContext]) guiActions 1 []
      sceneGui).2.2 = .ended .panic := by
  decide

/-- C5, counterexample. The channel holds one action, which does not fail but
sends an action that fails: the drain runs both and the pass gets the error,
though no action queued before the drain failed. The channel holds one
action that never fails and sends itself again: however long the drain is
followed it has not ended and the channel is not empty, so the pass does not
return. -/
theorem deferred_queue_drain_counterexample :
    ((recordActions 4 []).2.2 = none ∧
      (drainAfterLayoutFuncs recordActions 5 [4] []).finished = true ∧
      (drainAfterLayoutFuncs recordActions 5 [4] []).executed = [4, 5] ∧
      (drainAfterLayoutFuncs recordActions 5 [4] []).state = ["A", "D"] ∧
      (drainAfterLayoutFuncs recordActions 5 [4] []).err = some (.other "D")) ∧
    ((∀ s, (recordActions 6 s).2.2 = none) ∧
      ∀ fuel, (drainAfterLayoutFuncs recordActions fuel [6] []).finished = false ∧
        (drainAfterLayoutFuncs recordActions fuel [6] []).remaining = [6] ∧
        (drainAfterLayoutFuncs recordActions fuel [6] []).err = none) := by
  refine ⟨by decide, fun _ => rfl, fun fuel => drain_recordActions_six fuel []⟩

/-- C5, amended. The drain runs the actions queued before it in the order they
were queued, each at most once, and after them, in send order, the actions
that the actions it runs send to the channel; it never waits. If the drain
ends and no action it ran failed, every action queued before the drain has
been run, the channel is empty and the pass returns no error. If an action
fails, the drain ends there: the actions run are the sequence up to and
including that first failing action, its error is the result of the pass and
the rest stays in the channel. The drain ends within `length queue + 1`
iterations when no queued action sends an action, and once ended it stays as
it is; while it has not ended the pass has not returned. -/
theorem deferred_queue_drain_amended {σ : Type} (run : DeferredActions σ) (fuel : Nat)
    (queue : List Nat) (s : σ) (d : Drained σ)
    (env : Env) (guiRun : DeferredActions Gui) (guiFuel : Nat) (guiQueue : List Nat)
    (gui gui1 : Gui)
    (hd : d = drainAfterLayoutFuncs run fuel queue s) :
    d.executed ++ d.remaining = queue ++ sentBy run d.executed s ∧
    d.executed.take queue.length = queue.take d.executed.length ∧
    d.state = runActions run d.executed s ∧
    (∀ i, i + 1 < d.executed.length → errAt run d.executed s i = none) ∧
    (d.finished = true → d.err = none →
      d.remaining = [] ∧ d.executed.take queue.length = queue ∧
      ∀ i, i < d.executed.length → errAt run d.executed s i = none) ∧
    (∀ e, d.err = some e →
      d.finished = true ∧ d.executed ≠ [] ∧
      errAt run d.executed s (d.executed.length - 1) = some e) ∧
    (d.finished = false → d.executed.length = fuel ∧ d.err = none) ∧
    ((∀ a ∈ queue, ∀ t, (run a t).2.1 = []) → queue.length < fuel →
      d.finished = true ∧ d.executed ++ d.remaining = queue) ∧
    (d.finished = true → ∀ extra, drainAfterLayoutFuncs run (fuel + extra) queue s = d) ∧
    (layoutStructural env gui = (gui1, .ok) →
      layout env guiRun guiFuel guiQueue gui =
        ((drainAfterLayoutFuncs guiRun guiFuel guiQueue gui1).state,
          (drainAfterLayoutFuncs guiRun guiFuel guiQueue gui1).remaining,
          if (drainAfterLayoutFuncs guiRun guiFuel guiQueue gui1).finished = true then
            match (drainAfterLayoutFuncs guiRun guiFuel guiQueue gui1).err with
            | some err => .ended (.error err)
            | none => .ended .ok
          else .running)) := by
  subst hd
  obtain ⟨h1, h2, h3, h4, h5, h6⟩ := drain_spec run fuel queue s
  have htake := take_of_append_eq _ _ _ _ h1
  refine ⟨h1, htake, h2, h3, ?_, h5, h6, ?_, ?_,
    layout_of_structural_ok env guiRun guiFuel guiQueue gui gui1⟩
  · intro hfin herr
    obtain ⟨hrem, hall⟩ := h4 hfin herr
    refine ⟨hrem, ?_, hall⟩
    rw [hrem, List.append_nil] at h1
    rw [h1]
    simp
  · intro hsend hlen
    obtain ⟨e1, e2⟩ := drain_ends run fuel queue s hsend hlen
    refine ⟨e1, ?_⟩
    rw [h1, e2, List.append_nil]
  · intro hfin extra
    exact drain_more_fuel run fuel queue s extra hfin

/-- Witness for the amended C5: actions recording "A", "B", "C" leave the record
["A", "B", "C"] and an empty channel; when "B" fails the record is
["A", "B"], "C" stays in the channel and the error of "B" is returned; an
action sent during the drain runs after the queued ones; a pass whose only
deferred action fails returns the error of that action. -/
theorem deferred_queue_drain_amended_witness :
    ((drainAfterLayoutFuncs recordActions 4 [0, 1, 2] []).state = ["A", "B", "C"] ∧
      (drainAfterLayoutFuncs recordActions 4 [0, 1, 2] []).executed = [0, 1, 2] ∧
      (drainAfterLayoutFuncs recordActions 4 [0, 1, 2] []).remaining = [] ∧
      (drainAfterLayoutFuncs recordActions 4 [0, 1, 2] []).err = none) ∧
    ((drainAfterLayoutFuncs recordActions 4 [0, 3, 2] []).state = ["A", "B"] ∧
      (drainAfterLayoutFuncs recordActions 4 [0, 3, 2] []).executed = [0, 3] ∧
      (drainAfterLayoutFuncs recordActions 4 [0, 3, 2] []).remaining = [2] ∧
      (drainAfterLayoutFuncs recordActions 4 [0, 3, 2] []).err = some (.other "B")) ∧
    ((drainAfterLayoutFuncs recordActions 4 [7, 1] []).state = ["A", "B", "D"] ∧
      (drainAfterLayoutFuncs recordActions 4 [7, 1] []).executed = [7, 1, 8]) ∧
    (layout (sceneEnv 80 []) guiActions 2 [0] sceneGui).2.2 =
      .ended (.error (.other "deferred")) := by
  refine ⟨?_, ?_, ?_, ?_⟩
  · obtain ⟨_, _, hstate, _, hok, _, _, hends, _, _⟩ := deferred_queue_drain_amended
      recordActions 4 [0, 1, 2] ([] : List String) _ (sceneEnv 80 []) guiActions 2 [0]
      sceneGui sceneGui rfl
    obtain ⟨hfin, hall⟩ := hends
      (by
        intro a ha t
        simp only [List.mem_cons, List.mem_singleton, List.not_mem_nil, or_false] at ha
        rcases ha with h | h | h <;> subst h <;> rfl)
      (by decide)
    obtain ⟨hrem, _, _⟩ := hok hfin rfl
    rw [hrem, List.append_nil] at hall
    exact ⟨by rw [hstate, hall]; rfl, hall, hrem, rfl⟩
  · obtain ⟨_, _, hstate, _, _, herr, _, hends, _, _⟩ := deferred_queue_drain_amended
      recordActions 4 [0, 3, 2] ([] : List String) _ (sceneEnv 80 []) guiActions 2 [0]
      sceneGui sceneGui rfl
    obtain ⟨hfin, _, _⟩ := herr (.other "B") rfl
    exact ⟨by rw [hstate]; rfl, rfl, rfl, rfl⟩
  · obtain ⟨_, _, hstate, _, _, _, _, _, _, _⟩ := deferred_queue_drain_amended
      recordActions 4 [7, 1] ([] : List String) _ (sceneEnv 80 []) guiActions 2 [0]
      sceneGui sceneGui rfl
    exact ⟨by rw [hstate]; rfl, rfl⟩
  · obtain ⟨_, _, _, _, _, _, _, _, _, hpass⟩ := deferred_queue_drain_amended
      recordActions 4 [0, 1, 2] ([] : List String) _ (sceneEnv 80 []) guiActions 2 [0]
      sceneGui (layoutStructural (sceneEnv 80 []) sceneGui).1 rfl
    rw [hpass (Prod.ext rfl (by decide))]
    rfl

/-- C6 (lifecycle one-shot). Over `n ≥ 1` consecutive passes that all end
normally, starting with `gui.ViewsSetup` false, `onInitialViewsCreation` runs
exactly once, in the first pass, and `gui.ViewsSetup` is true afterwards;
`onInitialViewsCreationForRepo` runs once if `gui.State.ViewsSetup` was false
at the start and `gui.State.ViewsSetup` is true afterwards. After a reset of
`gui.State.ViewsSetup` to false, further passes run
`onInitialViewsCreationForRepo` exactly once more and
`onInitialViewsCreation` not again. Deferred actions leave the gates alone. -/
theorem lifecycle_one_shot (passes afterReset : List Pass) (gui gui1 gui2 : Gui)
    (hq1 : ∀ p ∈ passes, preservesLifecycle p.run p.queue)
    (hq2 : ∀ p ∈ afterReset, preservesLifecycle p.run p.queue)
    (hn : passes ≠ []) (hA : gui.ViewsSetup = false)
    (hrun : layoutPasses passes gui = (gui1, .ended .ok))
    (hm : afterReset ≠ [])
    (hrun2 : layoutPasses afterReset { gui1 with StateViewsSetup := false } =
      (gui2, .ended .ok)) :
    processReadyRuns gui1 = processReadyRuns gui + 1 ∧
    (∀ p rest, passes = p :: rest →
      processReadyRuns (layout p.env p.run p.fuel p.queue gui).1 = processReadyRuns gui + 1) ∧
    gui1.ViewsSetup = true ∧
    repoReadyRuns gui1 = repoReadyRuns gui + (if gui.StateViewsSetup then 0 else 1) ∧
    gui1.StateViewsSetup = true ∧
    repoReadyRuns gui2 = repoReadyRuns gui1 + 1 ∧
    processReadyRuns gui2 = processReadyRuns gui1 ∧
    gui2.ViewsSetup = true ∧ gui2.StateViewsSetup = true := by
  obtain ⟨a1, a2, a3, a4, a5⟩ := layoutPasses_lifecycle passes gui gui1 hq1 hn hrun
  obtain ⟨b1, b2, b3, b4, _⟩ := layoutPasses_lifecycle afterReset
    { gui1 with StateViewsSetup := false } gui2 hq2 hm hrun2
  have a3' : processReadyRuns gui1 = processReadyRuns gui + 1 := by
    rw [a3, hA]; simp
  refine ⟨a3', ?_, a1, a4, a2, ?_, ?_, b1, b2⟩
  · intro p rest heq
    rw [(a5 p rest heq).1, a3']
  · rw [b4]; rfl
  · rw [b3]
    simp only [a1, if_true, Nat.add_zero]
    rfl

/-- Witness for C6: five passes from a fresh `Gui`, each draining a deferred
action that sends another, run each sequence once; after a reset of the
repository gate three more passes run the repo-ready sequence once more and
the process-ready sequence not again. -/
theorem lifecycle_one_shot_witness :
    (layoutPasses (scenePasses 5) sceneGui).2 = .ended .ok ∧
    processReadyRuns (layoutPasses (scenePasses 5) sceneGui).1 = 1 ∧
    repoReadyRuns (layoutPasses (scenePasses 5) sceneGui).1 = 1 ∧
    processReadyRuns (layoutPasses (scenePasses 3)
      { (layoutPasses (scenePasses 5) sceneGui).1 with StateViewsSetup := false }).1 = 1 ∧
    repoReadyRuns (layoutPasses (scenePasses 3)
      { (layoutPasses (scenePasses 5) sceneGui).1 with StateViewsSetup := false }).1 = 2 := by
  have hq : ∀ n, ∀ p ∈ scenePasses n, preservesLifecycle p.run p.queue := by
    intro n p hp
    have := List.eq_of_mem_replicate hp
    subst this
    intro a _ gui
    exact guiActions_lifecycle a gui
  have h := lifecycle_one_shot (scenePasses 5) (scenePasses 3) sceneGui
    (layoutPasses (scenePasses 5) sceneGui).1
    (layoutPasses (scenePasses 3)
      { (layoutPasses (scenePasses 5) sceneGui).1 with StateViewsSetup := false }).1
    (hq 5) (hq 3) (by simp [scenePasses]) rfl
    (Prod.ext rfl (by decide)) (by simp [scenePasses])
    (Prod.ext rfl (by decide))
  obtain ⟨h1, _, _, h4, _, h6, h7, _, _⟩ := h
  refine ⟨by decide, ?_, ?_, ?_, ?_⟩
  · rw [h1]; rfl
  · rw [h4]; rfl
  · rw [h7, h1]; rfl
  · rw [h6, h4]; rfl

/-- C7, counterexample. The transient popup context of the view "menu" is the
occupant of its window "menu". In a pass that starts with
`gui.State.ViewsSetup` false and ends normally, the transient-visibility step
makes the view visible and `onInitialViewsCreationForRepo` then hides it: the
view is not visible after the pass although the window-ownership authority
names it. -/
theorem transient_visibility_counterexample :
    menuContext.IsTransient = true ∧
    (sceneEnv 80 [menuContext]).GetViewNameForWindow menuContext.GetWindowName =
      menuContext.GetViewName ∧
    sceneGui.StateViewsSetup = false ∧
    (layout (sceneEnv 80 [menuContext]) guiActions 1 [] sceneGui).2.2 = .ended .ok ∧
    (layout (sceneEnv 80 [menuContext]) guiActions 1 [] sceneGui).1.g.View
        menuContext.GetViewName =
      .ok { preparedView "menu" with Visible := false } := by
  refine ⟨rfl, rfl, rfl, by decide, rfl⟩

/-- C7, amended. After every pass that ends normally, with deferred actions that
leave the views alone and contexts that name the same view naming the same
window, the view of every transient context exists and is visible if and
only if `GetViewNameForWindow` of the context's window names that view (also
when the context has controlled bounds and the binder has set the view
visible or hidden before), except in a pass that starts with
`gui.State.ViewsSetup` false, in which `onInitialViewsCreationForRepo` hides
the views of popup contexts after the transient-visibility step; so of two
transient contexts with distinct view names that share a window name at most
one is visible. -/
theorem transient_visibility_amended (env : Env) (run : DeferredActions Gui) (fuel : Nat)
    (queue rest : List Nat) (gui gui1 : Gui)
    (hrun : layout env run fuel queue gui = (gui1, rest, .ended .ok))
    (hq : preservesSurface run queue)
    (hwf : ∀ c1 ∈ transientContexts env.contexts, ∀ c2 ∈ transientContexts env.contexts,
      c1.GetViewName = c2.GetViewName → c1.GetWindowName = c2.GetWindowName) :
    (∀ c ∈ env.contexts, c.IsTransient = true →
      ∃ w, gui1.g.View c.GetViewName = .ok w ∧
        ((gui.StateViewsSetup = true ∨ c.GetViewName ∉ popupViewNames env.contexts) →
          (w.Visible = true ↔ env.GetViewNameForWindow c.GetWindowName = c.GetViewName)) ∧
        (gui.StateViewsSetup = false → c.GetViewName ∈ popupViewNames env.contexts →
          w.Visible = false)) ∧
    (∀ c1 ∈ env.contexts, ∀ c2 ∈ env.contexts, c1.IsTransient = true → c2.IsTransient = true →
      c1.GetViewName ≠ c2.GetViewName → c1.GetWindowName = c2.GetWindowName →
      ∀ w1 w2, gui1.g.View c1.GetViewName = .ok w1 → gui1.g.View c2.GetViewName = .ok w2 →
        ¬ (w1.Visible = true ∧ w2.Visible = true)) := by
  rcases hs : layoutStructural env gui with ⟨g1, _ | e | _⟩
  · rw [layout_of_structural_ok env run fuel queue gui g1 hs] at hrun
    injection hrun with h1 _
    have hd := drain_keeps_reachable run (fun a b : Gui => a.g = b.g) (fun _ => rfl)
      (fun _ _ _ h1 h2 => h1.trans h2) fuel queue g1 hq
    rw [h1] at hd
    obtain ⟨g2, g3, htr, hsurf⟩ := layoutStructural_surface env gui g1 hs
    have hex := transientVisibility_ok_exists env.GetViewNameForWindow _ g2 g3 htr
    obtain ⟨g3b, hrun3, _, _, hverdict⟩ :=
      transientVisibility_spec env.GetViewNameForWindow (transientContexts env.contexts) g2
        hex hwf
    rw [htr] at hrun3
    injection hrun3 with hg3 _
    subst hg3
    have hmain : ∀ c ∈ env.contexts, c.IsTransient = true →
        ∃ w, gui1.g.View c.GetViewName = .ok w ∧
          ((gui.StateViewsSetup = true ∨ c.GetViewName ∉ popupViewNames env.contexts) →
            (w.Visible = true ↔ env.GetViewNameForWindow c.GetWindowName = c.GetViewName)) ∧
          (gui.StateViewsSetup = false → c.GetViewName ∈ popupViewNames env.contexts →
            w.Visible = false) := by
      intro c hc ht
      have hmem : c ∈ transientContexts env.contexts := by
        unfold transientContexts
        exact List.mem_filter.2 ⟨hc, ht⟩
      obtain ⟨w3, hw3, hvis3⟩ := hverdict c hmem
      rw [hd, hsurf]
      by_cases hB : gui.StateViewsSetup = true
      · rw [if_pos hB]
        refine ⟨w3, hw3, ?_, ?_⟩
        · intro _; rw [hvis3]; simp
        · intro hf; rw [hB] at hf; cases hf
      · rw [if_neg hB, hidePopups_View, hw3]
        by_cases hp : c.GetViewName ∈ popupViewNames env.contexts
        · rw [if_pos hp]
          refine ⟨{ w3 with Visible := false }, rfl, ?_, ?_⟩
          · intro h
            rcases h with h | h
            · exact absurd h hB
            · exact absurd hp h
          · intro _ _; rfl
        · rw [if_neg hp]
          refine ⟨w3, rfl, ?_, ?_⟩
          · intro _; rw [hvis3]; simp
          · intro _ h; exact absurd h hp
    refine ⟨hmain, ?_⟩
    intro c1 hc1 c2 hc2 ht1 ht2 hne hwin w1 w2 hw1 hw2 hboth
    obtain ⟨u1, hu1, hiff1, hhid1⟩ := hmain c1 hc1 ht1
    obtain ⟨u2, hu2, hiff2, hhid2⟩ := hmain c2 hc2 ht2
    rw [hw1] at hu1
    rw [hw2] at hu2
    injection hu1 with hu1
    injection hu2 with hu2
    subst hu1 hu2
    have key : ∀ (c : Context) (w : View),
        ((gui.StateViewsSetup = true ∨ c.GetViewName ∉ popupViewNames env.contexts) →
          (w.Visible = true ↔ env.GetViewNameForWindow c.GetWindowName = c.GetViewName)) →
        (gui.StateViewsSetup = false → c.GetViewName ∈ popupViewNames env.contexts →
          w.Visible = false) →
        w.Visible = true → env.GetViewNameForWindow c.GetWindowName = c.GetViewName := by
      intro c w hiff hhid hv
      by_cases hB : gui.StateViewsSetup = true
      · exact (hiff (Or.inl hB)).1 hv
      · by_cases hp : c.GetViewName ∈ popupViewNames env.contexts
        · have := hhid (by simpa using hB) hp
          rw [hv] at this; cases this
        · exact (hiff (Or.inr hp)).1 hv
    have e1 := key c1 w1 hiff1 hhid1 hboth.1
    have e2 := key c2 w2 hiff2 hhid2 hboth.2
    rw [hwin] at e1
    exact hne (e1.symm.trans e2)
  · unfold layout at hrun
    rw [hs] at hrun
    cases hrun
  · unfold layout at hrun
    rw [hs] at hrun
    cases hrun

/-- Witness for the amended C7. The binder makes the views "files" and "options"
visible; their transient contexts share the window "files", whose occupant is
"options", and the transient popup context of "menu" occupies its window.
After a pass that starts with `gui.State.ViewsSetup` true, "options" and
"menu" are visible and "files" is not; after a pass that starts with it
false, "menu" is hidden. -/
theorem transient_visibility_amended_witness :
    (layout transientEnv guiActions 3 [1] { sceneGui with StateViewsSetup := true }).2.2 =
      .ended .ok ∧
    (∃ w, (layout transientEnv guiActions 3 [1]
        { sceneGui with StateViewsSetup := true }).1.g.View "files" = .ok w ∧
      w.Visible = false) ∧
    (∃ w, (layout transientEnv guiActions 3 [1]
        { sceneGui with StateViewsSetup := true }).1.g.View "options" = .ok w ∧
      w.Visible = true) ∧
    (∃ w, (layout transientEnv guiActions 3 [1]
        { sceneGui with StateViewsSetup := true }).1.g.View "menu" = .ok w ∧
      w.Visible = true) ∧
    (∃ w, (layout transientEnv guiActions 3 [1] sceneGui).1.g.View "menu" = .ok w ∧
      w.Visible = false) := by
  have hsurf : preservesSurface guiActions [1] := fun a _ gui => guiActions_g a gui
  have htc : transientContexts transientEnv.contexts =
      [transientFilesContext, transientOptionsContext, menuContext] := by decide
  have hwf : ∀ c1 ∈ transientContexts transientEnv.contexts,
      ∀ c2 ∈ transientContexts transientEnv.contexts,
      c1.GetViewName = c2.GetViewName → c1.GetWindowName = c2.GetWindowName := by
    rw [htc]; decide
  obtain ⟨hopen, _⟩ := transient_visibility_amended transientEnv guiActions 3 [1]
    (layout transientEnv guiActions 3 [1] { sceneGui with StateViewsSetup := true }).2.1
    { sceneGui with StateViewsSetup := true }
    (layout transientEnv guiActions 3 [1] { sceneGui with StateViewsSetup := true }).1
    (Prod.ext rfl (Prod.ext rfl (by decide))) hsurf hwf
  obtain ⟨hclosed, _⟩ := transient_visibility_amended transientEnv guiActions 3 [1]
    (layout transientEnv guiActions 3 [1] sceneGui).2.1 sceneGui
    (layout transientEnv guiActions 3 [1] sceneGui).1
    (Prod.ext rfl (Prod.ext rfl (by decide))) hsurf hwf
  refine ⟨by decide, ?_, ?_, ?_, ?_⟩
  · obtain ⟨w, hw, hiff, _⟩ := hopen transientFilesContext (by decide) rfl
    refine ⟨w, hw, ?_⟩
    have : ¬ w.Visible = true := fun h => absurd ((hiff (Or.inl rfl)).1 h) (by decide)
    simpa using this
  · obtain ⟨w, hw, hiff, _⟩ := hopen transientOptionsContext (by decide) rfl
    exact ⟨w, hw, (hiff (Or.inl rfl)).2 (by decide)⟩
  · obtain ⟨w, hw, hiff, _⟩ := hopen menuContext (by decide) rfl
    exact ⟨w, hw, (hiff (Or.inl rfl)).2 (by decide)⟩
  · obtain ⟨w, hw, _, hhid⟩ := hclosed menuContext (by decide) rfl
    exact ⟨w, hw, hhid rfl (by decide)⟩

end Lazygit
